import Mathlib

/-!
Verification development for the rule-based paraphrasing and grammar-correction
engine of the paraphraser-api repository.  Text is modelled as `List Char`;
every operation mirrors the corresponding Python string primitive
(`str.replace`, `str.split`, `re.sub`, ...) used by the source.
-/

namespace PyStr

/-- The apostrophe character, built numerically. -/
def apos : Char := Char.ofNat 39

/-- The double-quote character. -/
def dq : Char := Char.ofNat 34

/-- String literal to character list. -/
def lit (s : String) : List Char := s.data

/-- Contraction literal helper: `ct ("can") ("t")` is the word can-apostrophe-t. -/
def ct (pre post : String) : List Char := pre.data ++ apos :: post.data

/-- Python `str.isspace` relevant set (the `\s` class of `re`). -/
def pyIsSpace (c : Char) : Bool :=
  (c == ' ') || (c == Char.ofNat 9) || (c == Char.ofNat 10) ||
  (c == Char.ofNat 13) || (c == Char.ofNat 11) || (c == Char.ofNat 12)

/-- The `\w` class of Python `re`: ASCII letters, digits, underscore. -/
def pyIsWordChar (c : Char) : Bool :=
  (97 ≤ c.toNat && c.toNat ≤ 122) || (65 ≤ c.toNat && c.toNat ≤ 90) ||
  (48 ≤ c.toNat && c.toNat ≤ 57) || (c == Char.ofNat 95)

/-- The `[a-z]` class. -/
def isLowerAZ (c : Char) : Bool := 97 ≤ c.toNat && c.toNat ≤ 122

/-- Python `str.lower` (ASCII behaviour, as exercised by the source). -/
def lowerL (s : List Char) : List Char := s.map Char.toLower

/-- Upper-case the first character, keep the rest (Python `s[0].upper() + s[1:]`). -/
def upFirst : List Char → List Char
  | [] => []
  | c :: cs => Char.toUpper c :: cs

/-- Python `str.capitalize`: first character upper, all others lower. -/
def pyCapitalize : List Char → List Char
  | [] => []
  | c :: cs => Char.toUpper c :: lowerL cs

/-- Python `str.strip()` (whitespace at both ends). -/
def pyStrip (s : List Char) : List Char :=
  ((s.dropWhile pyIsSpace).reverse.dropWhile pyIsSpace).reverse

/-- Python `str.rstrip(set)`. -/
def pyRStrip (set : List Char) (s : List Char) : List Char :=
  (s.reverse.dropWhile (fun c => set.contains c)).reverse

/-- Python `str.strip(set)`. -/
def pyStripSet (set : List Char) (s : List Char) : List Char :=
  ((s.dropWhile (fun c => set.contains c)).reverse.dropWhile (fun c => set.contains c)).reverse

/-- Python `sub in s` (substring containment). -/
def hasSub (s sub : List Char) : Bool := s.tails.any fun t => sub.isPrefixOf t

/-- Python `s.find(sub)` restricted to success as an `Option`. -/
def findFrom (sub : List Char) : List Char → Option Nat
  | [] => if sub.isPrefixOf ([] : List Char) then some 0 else none
  | c :: cs => if sub.isPrefixOf (c :: cs) then some 0 else (findFrom sub cs).map (· + 1)

/-- Fuel-driven worker for `str.replace`; `fuel = s.length` always suffices,
since every step consumes at least one character. -/
def replAllF (old new : List Char) : Nat → List Char → List Char
  | _, [] => []
  | 0, s => s
  | Nat.succ f, c :: cs =>
    if old ≠ [] ∧ old.isPrefixOf (c :: cs) then
      new ++ replAllF old new f ((c :: cs).drop old.length)
    else
      c :: replAllF old new f cs

/-- Python `str.replace(old, new)` (all occurrences, left to right, greedy);
the source never calls it with an empty `old`, for which this returns `s`. -/
def replAll (old new s : List Char) : List Char := replAllF old new s.length s

/-- Fuel-driven worker for `str.replace(old, new, count)`. -/
def replNF (old new : List Char) : Nat → Nat → List Char → List Char
  | _, _, [] => []
  | _, 0, s => s
  | 0, _, s => s
  | Nat.succ f, Nat.succ n, c :: cs =>
    if old ≠ [] ∧ old.isPrefixOf (c :: cs) then
      new ++ replNF old new f n ((c :: cs).drop old.length)
    else
      c :: replNF old new f (Nat.succ n) cs

/-- Python `str.replace(old, new, count)`. -/
def replN (old new : List Char) (count : Nat) (s : List Char) : List Char :=
  replNF old new s.length count s

/-- Fuel-driven worker for Python `str.split(sep)`. -/
def splitGo (sep : List Char) : Nat → List Char → List Char → List (List Char)
  | _, acc, [] => [acc.reverse]
  | 0, acc, s => [acc.reverse ++ s]
  | Nat.succ f, acc, c :: cs =>
    if sep ≠ [] ∧ sep.isPrefixOf (c :: cs) then
      acc.reverse :: splitGo sep f [] ((c :: cs).drop sep.length)
    else
      splitGo sep f (c :: acc) cs

/-- Python `str.split(sep)` (all splits). -/
def splitOnL (sep s : List Char) : List (List Char) := splitGo sep s.length [] s

/-- Python `str.split(sep, 1)` (first occurrence only). -/
def split1 (sep s : List Char) : List (List Char) :=
  match findFrom sep s with
  | some i => [s.take i, s.drop (i + sep.length)]
  | none => [s]

/-- Measure lemma for whitespace splitting. -/
theorem splitWs_measure (c : Char) (cs : List Char) :
    (((c :: cs).dropWhile (fun d => !pyIsSpace d)).dropWhile pyIsSpace).length <
      (c :: cs).length := by
  by_cases hc : pyIsSpace c
  · have h1 : (c :: cs).dropWhile (fun d => !pyIsSpace d) = c :: cs := by
      simp [List.dropWhile_cons, hc]
    rw [h1]
    have h2 : (c :: cs).dropWhile pyIsSpace = cs.dropWhile pyIsSpace := by
      simp [List.dropWhile_cons, hc]
    rw [h2]
    have := (List.dropWhile_sublist (l := cs) pyIsSpace).length_le
    simp only [List.length_cons]
    omega
  · have h1 : (c :: cs).dropWhile (fun d => !pyIsSpace d) = cs.dropWhile (fun d => !pyIsSpace d) := by
      simp [List.dropWhile_cons, hc]
    rw [h1]
    have h2 := (List.dropWhile_sublist (l := cs.dropWhile (fun d => !pyIsSpace d)) pyIsSpace).length_le
    have h3 := (List.dropWhile_sublist (l := cs) (fun d => !pyIsSpace d)).length_le
    simp only [List.length_cons]
    omega

/-- Fuel-driven worker for Python `str.split()`. -/
def splitWsGo : Nat → List Char → List (List Char)
  | _, [] => []
  | 0, s => [s]
  | Nat.succ f, c :: cs =>
    (c :: cs).takeWhile (fun d => !pyIsSpace d) ::
      splitWsGo f (((c :: cs).dropWhile (fun d => !pyIsSpace d)).dropWhile pyIsSpace)

/-- Python `str.split()` with no argument. -/
def splitWs (s : List Char) : List (List Char) :=
  splitWsGo s.length (s.dropWhile pyIsSpace)

/-- Python `" ".join(ws)`. -/
def joinSp (ws : List (List Char)) : List Char := (ws.intersperse (lit (" "))).flatten

/-- One-or-more whitespace at the front (`\s+`); returns the rest on success. -/
def eatWs1 (s : List Char) : Option (List Char) :=
  match s with
  | [] => none
  | c :: cs => if pyIsSpace c then some (cs.dropWhile pyIsSpace) else none

/-- Scanner used to embed `re.sub(pattern, repl, s)`: `f` attempts a match at the
current position and yields (consumed length, replacement); the scan advances one
character on failure, exactly as the Python regex engine does. -/
def scanSub (f : List Char → Option (Nat × List Char)) : Nat → List Char → List Char
  | 0, s => s
  | Nat.succ _, [] => []
  | Nat.succ fuel, c :: cs =>
    match f (c :: cs) with
    | some (n, rep) =>
      if n = 0 then c :: scanSub f fuel cs else rep ++ scanSub f fuel ((c :: cs).drop n)
    | none => c :: scanSub f fuel cs

/-- `re.sub` over a whole string. -/
def pySub (f : List Char → Option (Nat × List Char)) (s : List Char) : List Char :=
  scanSub f s.length s

/-- Scanner variant threading the previous character for `\b` lookbehind. -/
def scanSubB (f : Option Char → List Char → Option (Nat × List Char)) :
    Nat → Option Char → List Char → List Char
  | 0, _, s => s
  | Nat.succ _, _, [] => []
  | Nat.succ fuel, prev, c :: cs =>
    match f prev (c :: cs) with
    | some (n, rep) =>
      if n = 0 then c :: scanSubB f fuel (some c) cs
      else rep ++ scanSubB f fuel ((c :: cs)[n - 1]?) ((c :: cs).drop n)
    | none => c :: scanSubB f fuel (some c) cs

/-- `re.sub` with word-boundary-aware matcher. -/
def pySubB (f : Option Char → List Char → Option (Nat × List Char)) (s : List Char) : List Char :=
  scanSubB f s.length none s

/-- Single-replacement scanner (`re.sub(..., count=1)`), boundary-aware. -/
def scanSub1 (f : Option Char → List Char → Option (Nat × List Char)) :
    Option Char → List Char → List Char
  | _, [] => []
  | prev, c :: cs =>
    match f prev (c :: cs) with
    | some (n, rep) =>
      if n = 0 then c :: scanSub1 f (some c) cs else rep ++ (c :: cs).drop n
    | none => c :: scanSub1 f (some c) cs

/-- `re.sub(..., count=1)` over a whole string. -/
def pySub1 (f : Option Char → List Char → Option (Nat × List Char)) (s : List Char) : List Char :=
  scanSub1 f none s

/-- `re.search` as a Boolean, boundary-aware. -/
def pySearch (f : Option Char → List Char → Bool) (s : List Char) : Bool :=
  scanFind f none s
where
  scanFind (f : Option Char → List Char → Bool) : Option Char → List Char → Bool
    | prev, [] => f prev []
    | prev, c :: cs => f prev (c :: cs) || scanFind f (some c) cs

/-- A `\b` condition relative to the previous character. -/
def bdyPrev (prev : Option Char) : Bool :=
  match prev with
  | none => true
  | some c => !pyIsWordChar c

/-- A `\b` condition after a match: the next character must not be a word character. -/
def bdyNext (rest : List Char) : Bool :=
  match rest with
  | [] => true
  | c :: _ => !pyIsWordChar c

/-- Case-insensitive literal match (`re.IGNORECASE`); the pattern is given in
lower case.  Returns the rest of the input on success. -/
def matchCI (pat : List Char) (s : List Char) : Option (List Char) :=
  match pat, s with
  | [], s => some s
  | _ :: _, [] => none
  | p :: ps, c :: cs => if Char.toLower c == p then matchCI ps cs else none

/-- One output character is either the input character or its upper-case image. -/
def upRel (a b : Char) : Prop := b = a ∨ b = Char.toUpper a

/-- A character no upper-casing can produce (outside the A-Z block). -/
def upSafe (c : Char) : Bool := decide (c.toNat < 65) || (decide (97 ≤ c.toNat) && decide (c.toNat ≤ 122))

end PyStr

/-! ## SimpleParaphraser (src/scripts/simple_paraphraser.py) -/

namespace SP

open PyStr

/-- The `self.synonyms` table of `SimpleParaphraser.__init__`. -/
def synonyms : List (List Char × List (List Char)) := [
  (lit ("quick"), [lit ("fast"), lit ("rapid"), lit ("swift"), lit ("speedy")]),
  (lit ("brown"), [lit ("tan"), lit ("chestnut"), lit ("auburn"), lit ("russet")]),
  (lit ("jumps"), [lit ("leaps"), lit ("bounds"), lit ("springs"), lit ("hops")]),
  (lit ("lazy"), [lit ("idle"), lit ("sluggish"), lit ("inactive"), lit ("lethargic")]),
  (lit ("dog"), [lit ("canine"), lit ("hound"), lit ("pup"), lit ("animal")]),
  (lit ("nice"), [lit ("pleasant"), lit ("lovely"), lit ("beautiful"), lit ("wonderful")]),
  (lit ("good"), [lit ("excellent"), lit ("great"), lit ("fine"), lit ("wonderful")]),
  (lit ("big"), [lit ("large"), lit ("huge"), lit ("enormous"), lit ("massive")]),
  (lit ("small"), [lit ("tiny"), lit ("little"), lit ("petite"), lit ("compact")]),
  (lit ("happy"), [lit ("joyful"), lit ("cheerful"), lit ("delighted"), lit ("pleased")]),
  (lit ("sad"), [lit ("unhappy"), lit ("sorrowful"), lit ("melancholy"), lit ("dejected")]),
  (lit ("amazing"), [lit ("incredible"), lit ("fantastic"), lit ("wonderful"), lit ("remarkable")]),
  (lit ("beautiful"), [lit ("gorgeous"), lit ("stunning"), lit ("lovely"), lit ("attractive")]),
  (lit ("important"), [lit ("crucial"), lit ("vital"), lit ("significant"), lit ("essential")]),
  (lit ("create"), [lit ("build"), lit ("make"), lit ("construct"), lit ("develop")]),
  (lit ("help"), [lit ("assist"), lit ("support"), lit ("aid"), lit ("guide")]),
  (lit ("think"), [lit ("believe"), lit ("consider"), lit ("suppose"), lit ("imagine")]),
  (lit ("need"), [lit ("require"), lit ("must have"), lit ("want"), lit ("demand")]),
  (lit ("schedule"), [lit ("arrange"), lit ("plan"), lit ("organize"), lit ("set up")]),
  (lit ("discuss"), [lit ("talk about"), lit ("examine"), lit ("review"), lit ("consider")]),
  (lit ("project"), [lit ("task"), lit ("assignment"), lit ("work"), lit ("endeavor")]),
  (lit ("meeting"), [lit ("gathering"), lit ("conference"), lit ("session"), lit ("discussion")]),
  (lit ("weather"), [lit ("climate"), lit ("conditions"), lit ("atmosphere"), lit ("environment")]),
  (lit ("today"), [lit ("this day"), lit ("currently"), lit ("at present"), lit ("right now")]),
  (lit ("movie"), [lit ("film"), lit ("picture"), lit ("cinema"), lit ("flick")]),
  (lit ("absolutely"), [lit ("completely"), lit ("totally"), lit ("entirely"), lit ("fully")]),
  (lit ("people"), [lit ("individuals"), lit ("persons"), lit ("folks"), lit ("everyone")]),
  (lit ("scared"), [lit ("frightened"), lit ("afraid"), lit ("terrified"), lit ("alarmed")])]

/-- `_apply_synonyms`: per-token synonym substitution. -/
def applySynonyms (text style : List Char) (variation : Nat) : List Char :=
  joinSp ((splitWs text).map fun word =>
    let cw := (lowerL word).filter pyIsWordChar
    let punct := word.filter fun c => !pyIsWordChar c
    match synonyms.lookup cw with
    | some syns =>
      let index :=
        if style = lit ("creative") then (variation * 2) % syns.length
        else if style = lit ("formal") then min variation (syns.length - 1)
        else variation % syns.length
      syns.getD index [] ++ punct
    | none => word)

/-- Matcher for `(\w+) jumps over (\w+)` with replacement `\2 is jumped over by \1`. -/
def matchPat1 (s : List Char) : Option (Nat × List Char) :=
  let g1 := s.takeWhile pyIsWordChar
  let r1 := s.dropWhile pyIsWordChar
  if g1 = [] then none
  else if (lit (" jumps over ")).isPrefixOf r1 then
    let r2 := r1.drop 12
    let g2 := r2.takeWhile pyIsWordChar
    if g2 = [] then none
    else some (g1.length + 12 + g2.length, g2 ++ lit (" is jumped over by ") ++ g1)
  else none

/-- Matcher for `(\w+) was (\w+)` with replacement `\1 happened to be \2`. -/
def matchPat2 (s : List Char) : Option (Nat × List Char) :=
  let g1 := s.takeWhile pyIsWordChar
  let r1 := s.dropWhile pyIsWordChar
  if g1 = [] then none
  else if (lit (" was ")).isPrefixOf r1 then
    let r2 := r1.drop 5
    let g2 := r2.takeWhile pyIsWordChar
    if g2 = [] then none
    else some (g1.length + 5 + g2.length, g1 ++ lit (" happened to be ") ++ g2)
  else none

/-- Matcher for `We need to (\w+)` with replacement `It is necessary to \1`. -/
def matchPat3 (s : List Char) : Option (Nat × List Char) :=
  if (lit ("We need to ")).isPrefixOf s then
    let r1 := s.drop 11
    let g1 := r1.takeWhile pyIsWordChar
    if g1 = [] then none
    else some (11 + g1.length, lit ("It is necessary to ") ++ g1)
  else none

/-- Matcher for `(\w+) is (\w+) today` with replacement `Today, \1 appears to be \2`. -/
def matchPat4 (s : List Char) : Option (Nat × List Char) :=
  let g1 := s.takeWhile pyIsWordChar
  let r1 := s.dropWhile pyIsWordChar
  if g1 = [] then none
  else if (lit (" is ")).isPrefixOf r1 then
    let r2 := r1.drop 4
    let g2 := r2.takeWhile pyIsWordChar
    if g2 = [] then none
    else if (lit (" today")).isPrefixOf (r2.drop g2.length) then
      some (g1.length + 4 + g2.length + 6, lit ("Today, ") ++ g1 ++ lit (" appears to be ") ++ g2)
    else none
  else none

/-- `re.search(pattern, text)` as a Boolean for the restructure patterns. -/
def foundPat (f : List Char → Option (Nat × List Char)) (s : List Char) : Bool :=
  s.tails.any fun t => (f t).isSome

/-- `_restructure_sentence`: apply the first matching pattern, then stop. -/
def restructure (text : List Char) : List Char :=
  if foundPat matchPat1 text then pySub matchPat1 text
  else if foundPat matchPat2 text then pySub matchPat2 text
  else if foundPat matchPat3 text then pySub matchPat3 text
  else if foundPat matchPat4 text then pySub matchPat4 text
  else text

/-- Matcher for `\b(fox|dog|animal)\b` with replacement `magnificent \1`. -/
def matchCreative1 (prev : Option Char) (s : List Char) : Option (Nat × List Char) :=
  if bdyPrev prev then
    (([lit ("fox"), lit ("dog"), lit ("animal")]).findSome? fun w =>
      if w.isPrefixOf s && bdyNext (s.drop w.length) then
        some (w.length, lit ("magnificent ") ++ w)
      else none)
  else none

/-- Matcher for `\b(jumps|leaps|bounds)\b` with replacement `gracefully \1`. -/
def matchCreative2 (prev : Option Char) (s : List Char) : Option (Nat × List Char) :=
  if bdyPrev prev then
    (([lit ("jumps"), lit ("leaps"), lit ("bounds")]).findSome? fun w =>
      if w.isPrefixOf s && bdyNext (s.drop w.length) then
        some (w.length, lit ("gracefully ") ++ w)
      else none)
  else none

/-- `_apply_style_transformations`. -/
def applyStyleTransformations (text style : List Char) : List Char :=
  if style = lit ("formal") then
    let t1 := replAll (ct ("can") ("t")) (lit ("cannot")) text
    let t2 := replAll (ct ("won") ("t")) (lit ("will not")) t1
    let t3 := replAll (ct ("don") ("t")) (lit ("do not")) t2
    let t4 := replAll (ct ("isn") ("t")) (lit ("is not")) t3
    if hasSub t4 (lit (". ")) then replN (lit (". ")) (lit (". Furthermore, ")) 1 t4 else t4
  else if style = lit ("casual") then
    let t1 := replAll (lit ("cannot")) (ct ("can") ("t")) text
    let t2 := replAll (lit ("will not")) (ct ("won") ("t")) t1
    let t3 := replAll (lit ("do not")) (ct ("don") ("t")) t2
    let t4 := replAll (lit ("is not")) (ct ("isn") ("t")) t3
    if hasSub t4 (lit (". ")) then replN (lit (". ")) (lit (". Also, ")) 1 t4 else t4
  else if style = lit ("creative") then
    let t1 := pySub1 matchCreative1 text
    pySub1 matchCreative2 t1
  else text

/-- Worker for `_fix_capitalization`: `re.sub(r'(\. )([a-z])', ...)`. -/
def fixCapSub : List Char → List Char
  | c1 :: c2 :: c3 :: rest =>
    if c1 == '.' && c2 == ' ' && isLowerAZ c3 then
      c1 :: c2 :: Char.toUpper c3 :: fixCapSub rest
    else
      c1 :: fixCapSub (c2 :: c3 :: rest)
  | s => s

/-- `_fix_capitalization`. -/
def fixCapitalization (text : List Char) : List Char := fixCapSub (upFirst text)

/-- `_paraphrase_text`. -/
def paraphraseText (text style : List Char) (variation : Nat) : List Char :=
  let p0 := lowerL text
  let p1 := applySynonyms p0 style variation
  let p2 := if style = lit ("creative") ∨ style = lit ("formal") then restructure p1 else p1
  let p3 := applyStyleTransformations p2 style
  fixCapitalization p3

/-- The alternatives loop of `SimpleParaphraser.paraphrase`. -/
def spLoop (text style primary : List Char) : Nat → Nat → List (List Char) → List (List Char)
  | _, 0, results => results
  | i, Nat.succ rem, results =>
    let alt := paraphraseText text style (i + 1)
    let results2 := if alt ≠ primary ∧ alt ∉ results then results ++ [alt] else results
    spLoop text style primary (i + 1) rem results2

/-- `SimpleParaphraser.paraphrase`. -/
def paraphrase (text style : List Char) (numAlternatives : Nat) : List (List Char) :=
  let primary := paraphraseText text style 0
  spLoop text style primary 0 (numAlternatives - 1) [primary]

end SP

/-! ## ParaphraseModel fallback engine (src/scripts/paraphrase_model.py) -/

namespace PM

open PyStr

/-- Python `str.endswith(c)` for a single character. -/
def endsC (s : List Char) (c : Char) : Bool := s.getLast? == some c

/-- The `universal_replacements` table of `_apply_semantic_substitutions`. -/
def universalReplacements : List (List Char × List (List Char)) := [
  (lit ("have"), [lit ("possess"), lit ("own"), lit ("hold"), lit ("maintain")]),
  (lit ("get"), [lit ("obtain"), lit ("acquire"), lit ("receive"), lit ("gain")]),
  (lit ("make"), [lit ("create"), lit ("produce"), lit ("generate"), lit ("cause")]),
  (lit ("do"), [lit ("perform"), lit ("execute"), lit ("carry out"), lit ("accomplish")]),
  (lit ("go"), [lit ("proceed"), lit ("advance"), lit ("move"), lit ("travel")]),
  (lit ("come"), [lit ("arrive"), lit ("approach"), lit ("emerge"), lit ("appear")]),
  (lit ("see"), [lit ("observe"), lit ("notice"), lit ("perceive"), lit ("witness")]),
  (lit ("know"), [lit ("understand"), lit ("comprehend"), lit ("realize"), lit ("recognize")]),
  (lit ("think"), [lit ("believe"), lit ("consider"), lit ("suppose"), lit ("assume")]),
  (lit ("say"), [lit ("state"), lit ("declare"), lit ("express"), lit ("mention")]),
  (lit ("give"), [lit ("provide"), lit ("offer"), lit ("supply"), lit ("deliver")]),
  (lit ("take"), [lit ("accept"), lit ("receive"), lit ("acquire"), lit ("obtain")]),
  (lit ("use"), [lit ("employ"), lit ("utilize"), lit ("apply"), lit ("implement")]),
  (lit ("find"), [lit ("discover"), lit ("locate"), lit ("identify"), lit ("uncover")]),
  (lit ("feel"), [lit ("experience"), lit ("sense"), lit ("perceive"), lit ("encounter")]),
  (lit ("look"), [lit ("appear"), lit ("seem"), lit ("examine"), lit ("observe")]),
  (lit ("want"), [lit ("desire"), lit ("wish"), lit ("prefer"), lit ("seek")]),
  (lit ("need"), [lit ("require"), lit ("demand"), lit ("necessitate"), lit ("call for")]),
  (lit ("try"), [lit ("attempt"), lit ("endeavor"), lit ("strive"), lit ("effort to")]),
  (lit ("work"), [lit ("function"), lit ("operate"), lit ("labor"), lit ("perform")]),
  (lit ("good"), [lit ("excellent"), lit ("outstanding"), lit ("superior"), lit ("fine")]),
  (lit ("bad"), [lit ("poor"), lit ("terrible"), lit ("awful"), lit ("inferior")]),
  (lit ("big"), [lit ("large"), lit ("enormous"), lit ("huge"), lit ("massive")]),
  (lit ("small"), [lit ("tiny"), lit ("little"), lit ("minimal"), lit ("compact")]),
  (lit ("new"), [lit ("recent"), lit ("fresh"), lit ("modern"), lit ("current")]),
  (lit ("old"), [lit ("ancient"), lit ("elderly"), lit ("aged"), lit ("former")]),
  (lit ("important"), [lit ("crucial"), lit ("vital"), lit ("significant"), lit ("essential")]),
  (lit ("different"), [lit ("distinct"), lit ("unique"), lit ("varied"), lit ("alternative")]),
  (lit ("easy"), [lit ("simple"), lit ("straightforward"), lit ("effortless"), lit ("basic")]),
  (lit ("hard"), [lit ("difficult"), lit ("challenging"), lit ("tough"), lit ("complex")]),
  (lit ("right"), [lit ("correct"), lit ("accurate"), lit ("proper"), lit ("appropriate")]),
  (lit ("wrong"), [lit ("incorrect"), lit ("mistaken"), lit ("erroneous"), lit ("false")]),
  (lit ("sure"), [lit ("certain"), lit ("confident"), lit ("positive"), lit ("convinced")]),
  (lit ("clear"), [lit ("obvious"), lit ("evident"), lit ("apparent"), lit ("transparent")]),
  (lit ("thing"), [lit ("item"), lit ("object"), lit ("matter"), lit ("element")]),
  (lit ("person"), [lit ("individual"), lit ("human"), lit ("character"), lit ("being")]),
  (lit ("time"), [lit ("period"), lit ("moment"), lit ("duration"), lit ("interval")]),
  (lit ("place"), [lit ("location"), lit ("position"), lit ("spot"), lit ("area")]),
  (lit ("way"), [lit ("method"), lit ("approach"), lit ("manner"), lit ("technique")]),
  (lit ("problem"), [lit ("issue"), lit ("difficulty"), lit ("challenge"), lit ("concern")]),
  (lit ("idea"), [lit ("concept"), lit ("notion"), lit ("thought"), lit ("proposal")]),
  (lit ("part"), [lit ("portion"), lit ("section"), lit ("component"), lit ("segment")]),
  (lit ("group"), [lit ("team"), lit ("collection"), lit ("assembly"), lit ("gathering")]),
  (lit ("fact"), [lit ("reality"), lit ("truth"), lit ("information"), lit ("detail")]),
  (lit ("very"), [lit ("extremely"), lit ("highly"), lit ("exceptionally"), lit ("remarkably")]),
  (lit ("really"), [lit ("truly"), lit ("genuinely"), lit ("actually"), lit ("indeed")]),
  (lit ("quite"), [lit ("rather"), lit ("fairly"), lit ("somewhat"), lit ("considerably")]),
  (lit ("always"), [lit ("constantly"), lit ("continuously"), lit ("perpetually"), lit ("invariably")]),
  (lit ("never"), [lit ("not ever"), lit ("at no time"), lit ("under no circumstances")]),
  (lit ("often"), [lit ("frequently"), lit ("regularly"), lit ("commonly"), lit ("repeatedly")]),
  (lit ("sometimes"), [lit ("occasionally"), lit ("periodically"), lit ("intermittently"), lit ("at times")]),
  (lit ("quickly"), [lit ("rapidly"), lit ("swiftly"), lit ("speedily"), lit ("promptly")]),
  (lit ("slowly"), [lit ("gradually"), lit ("leisurely"), lit ("steadily"), lit ("carefully")])]

/-- The strip set `'.,!?;:"()[]{}'` used by `_apply_semantic_substitutions`. -/
def punctSet : List Char := ['.', ',', '!', '?', ';', ':'] ++
  [dq, '(', ')', '[', ']', Char.ofNat 123, Char.ofNat 125]

/-- `_apply_style_grammar`. -/
def applyStyleGrammar (text style : List Char) : List Char :=
  if style = lit ("formal") then
    let t1 := replAll (ct ("can") ("t")) (lit ("cannot")) text
    let t2 := replAll (ct ("won") ("t")) (lit ("will not")) t1
    let t3 := replAll (ct ("don") ("t")) (lit ("do not")) t2
    let t4 := replAll (ct ("isn") ("t")) (lit ("is not")) t3
    let t5 := replAll (ct ("aren") ("t")) (lit ("are not")) t4
    let t6 := replAll (ct ("doesn") ("t")) (lit ("does not")) t5
    let t7 := replAll (ct ("I") ("m")) (lit ("I am")) t6
    let t8 := replAll (ct ("you") ("re")) (lit ("you are")) t7
    let t9 := replAll (ct ("it") ("s")) (lit ("it is")) t8
    replAll (ct ("that") ("s")) (lit ("that is")) t9
  else if style = lit ("casual") then
    let t1 := replAll (lit ("cannot")) (ct ("can") ("t")) text
    let t2 := replAll (lit ("will not")) (ct ("won") ("t")) t1
    let t3 := replAll (lit ("do not")) (ct ("don") ("t")) t2
    replAll (lit ("is not")) (ct ("isn") ("t")) t3
  else text

/-- One variant of `_apply_semantic_substitutions` (a fixed `variant_index`). -/
def semanticVariant (text style : List Char) (vi : Nat) : List Char :=
  let newWords := (splitWs text).map fun word =>
    let cw := pyStripSet punctSet (lowerL word)
    let punct := word.drop cw.length
    match universalReplacements.lookup cw with
    | some reps => if vi < reps.length then reps.getD vi [] ++ punct else word
    | none => word
  applyStyleGrammar (joinSp newWords) style

/-- `_apply_semantic_substitutions` (three variants, keeping those that differ). -/
def applySemanticSubstitutions (text style : List Char) : List (List Char) :=
  (([0, 1, 2]).map fun vi => semanticVariant text style vi).filter fun r => r ≠ text

/-- `_transform_temporal_expressions`. -/
def transformTemporal (text : List Char) : List (List Char) :=
  let part1 :=
    if (lit ("when i was ")).isPrefixOf (lowerL text) then
      let rest := text.drop 11
      if hasSub (lowerL rest) (lit (", i ")) then
        match split1 (lit (", I ")) rest with
        | [timePart, actionPart] =>
          [lit ("During my ") ++ timePart ++ lit (" period, I ") ++ actionPart,
           lit ("In my ") ++ timePart ++ lit (" days, I ") ++ actionPart,
           lit ("Back when I was ") ++ timePart ++ lit (", I ") ++ actionPart]
        | _ => []
      else []
    else []
  let part2 :=
    if hasSub (lowerL text) (lit ("used to ")) then
      match findFrom (lit ("used to ")) (lowerL text) with
      | some idx =>
        let before := text.take idx
        let after := text.drop (idx + 8)
        [before ++ lit ("would regularly ") ++ after,
         before ++ lit ("frequently ") ++
           replAll (lit ("go")) (lit ("went")) (replAll (lit ("play")) (lit ("played")) after),
         before ++ lit ("had a habit of ") ++ replN (lit (" ")) (lit ("ing ")) 1 after]
      | none => []
    else []
  let freqReps : List (List Char × List (List Char)) := [
    (lit ("every day"), [lit ("daily"), lit ("on a daily basis"), lit ("each day")]),
    (lit ("every week"), [lit ("weekly"), lit ("on a weekly basis"), lit ("each week")]),
    (lit ("always"), [lit ("consistently"), lit ("without fail"), lit ("invariably")]),
    (lit ("never"), [lit ("not once"), lit ("at no point"), lit ("under no circumstances")]),
    (lit ("often"), [lit ("frequently"), lit ("on many occasions"), lit ("regularly")]),
    (lit ("sometimes"), [lit ("occasionally"), lit ("from time to time"), lit ("periodically")])]
  let part3 := freqReps.flatMap fun fr =>
    if hasSub (lowerL text) fr.1 then
      fr.2.filterMap fun rep =>
        let newText := replAll fr.1 rep text
        if newText ≠ text then some newText else none
    else []
  part1 ++ part2 ++ part3

/-- `_recombine_sentences`. -/
def recombineSentences (sentences : List (List Char)) : Option (List Char) :=
  match sentences with
  | [] => none
  | [_] => none
  | s0 :: rest =>
    some (rest.foldl (fun comb s => comb ++ lit (". Furthermore, ") ++ pyStrip s) (pyStrip s0))

/-- `_split_coordinated_clauses`. -/
def splitCoordinated (text : List Char) : Option (List Char) :=
  ([lit (" and "), lit (" but "), lit (" or ")]).findSome? fun coord =>
    if hasSub text coord then
      match split1 coord text with
      | [p0, p1] => some (pyStrip p0 ++ lit (". ") ++ pyCapitalize (pyStrip p1))
      | _ => none
    else none

/-- `_reorder_clauses`. -/
def reorderClauses (text : List Char) : Option (List Char) :=
  ([lit ("because "), lit ("when "), lit ("if "), lit ("although "), lit ("while "),
    lit ("since ")]).findSome? fun sb =>
    if hasSub (lowerL text) sb then
      match findFrom sb (lowerL text) with
      | some idx =>
        if 0 < idx then
          let mainClause := pyRStrip [','] (pyStrip (text.take idx))
          let subClause := pyStrip (text.drop idx)
          some (pyCapitalize subClause ++ lit (", ") ++ lowerL mainClause)
        else none
      | none => none
    else none

/-- `_add_sentence_connectors`. -/
def addSentenceConnectors (text style : List Char) : List (List Char) :=
  if endsC text '?' || endsC text '!' then []
  else
    let connectors :=
      if style = lit ("formal") then
        [lit ("Furthermore, "), lit ("Additionally, "), lit ("It is worth noting that "),
         lit ("It should be emphasized that "), lit ("Notably, ")]
      else
        [lit ("Also, "), lit ("Plus, "), lit ("By the way, "), lit ("Actually, "),
         lit ("Basically, ")]
    (connectors.take 2).map fun conn => conn ++ lowerL text

/-- `_change_sentence_types`. -/
def changeSentenceTypes (text : List Char) : List (List Char) :=
  let part1 :=
    if !(endsC text '?') && !(endsC text '!') then
      if endsC text '.' then [text.dropLast ++ ['!']] else []
    else []
  let part2 :=
    if (lit ("Where ")).isPrefixOf text && endsC text '?' then
      [lit ("I would like to know ") ++ lowerL text.dropLast ++ ['.']]
    else []
  part1 ++ part2

/-- The contraction map of `_expand_contract_phrases`. -/
def contractionsMap : List (List Char × List Char) := [
  (ct ("can") ("t"), lit ("cannot")),
  (ct ("won") ("t"), lit ("will not")),
  (ct ("don") ("t"), lit ("do not")),
  (ct ("doesn") ("t"), lit ("does not")),
  (ct ("isn") ("t"), lit ("is not")),
  (ct ("aren") ("t"), lit ("are not")),
  (ct ("I") ("m"), lit ("I am")),
  (ct ("you") ("re"), lit ("you are")),
  (ct ("it") ("s"), lit ("it is")),
  (ct ("that") ("s"), lit ("that is")),
  (ct ("we") ("re"), lit ("we are")),
  (ct ("they") ("re"), lit ("they are"))]

/-- `_expand_contract_phrases`. -/
def expandContractPhrases (text style : List Char) : List (List Char) :=
  if style = lit ("formal") then
    let expanded := contractionsMap.foldl
      (fun e cx => if hasSub e cx.1 then replAll cx.1 cx.2 e else e) text
    let part1 := if expanded ≠ text then [expanded] else []
    let part2 :=
      if (lit ("I ")).isPrefixOf text then
        [lit ("It is my belief that ") ++ lowerL (text.drop 2)]
      else []
    part1 ++ part2
  else []

/-- `_apply_syntactic_transformations`. -/
def applySyntacticTransformations (text style : List Char) : List (List Char) :=
  let t1 := transformTemporal text
  let t2 :=
    if hasSub text (lit (". ")) then
      let sentences := splitOnL (lit (". ")) text
      if 1 < sentences.length then
        match recombineSentences sentences with
        | some comb => if comb ≠ text then [comb] else []
        | none => []
      else []
    else if hasSub text (lit (" and ")) || hasSub text (lit (" but ")) ||
        hasSub text (lit (" or ")) then
      match splitCoordinated text with
      | some sf => if sf ≠ text then [sf] else []
      | none => []
    else []
  let t3 :=
    match reorderClauses text with
    | some r => if r ≠ text then [r] else []
    | none => []
  let t4 := addSentenceConnectors text style
  let t5 := changeSentenceTypes text
  let t6 := expandContractPhrases text style
  t1 ++ t2 ++ t3 ++ t4 ++ t5 ++ t6

/-- `_change_perspective`. -/
def changePerspective (text : List Char) : List (List Char) :=
  if (lit ("i ")).isPrefixOf (lowerL text) then
    [replN (lit ("my ")) (ct ("one") ("s ")) 1 (replN (lit ("I ")) (lit ("One ")) 1 text)]
  else []

/-- Worker for `_modify_intensity`: first qualifying adjective wins. -/
def intensityGo : List (List Char) → List (List Char) → List (List Char)
  | _, [] => []
  | done, w :: rest =>
    if ([lit ("good"), lit ("bad"), lit ("difficult"), lit ("easy"), lit ("important"),
        lit ("clear")]).contains (lowerL w) then
      [joinSp (done.reverse ++ (lit ("somewhat ") ++ w) :: rest)]
    else intensityGo (w :: done) rest

/-- `_modify_intensity`. -/
def modifyIntensity (text style : List Char) : List (List Char) :=
  if style = lit ("formal") then
    if !(([lit ("somewhat"), lit ("rather"), lit ("quite"), lit ("fairly")]).any fun w =>
        hasSub (lowerL text) w) then
      intensityGo [] (splitWs text)
    else []
  else []

/-- `_modify_relationships`. -/
def modifyRelationships (text : List Char) : List (List Char) :=
  if hasSub text (lit (". ")) then
    match splitOnL (lit (". ")) text with
    | [s0, s1] => [pyStrip s0 ++ lit (". Consequently, ") ++ lowerL (pyStrip s1)]
    | _ => []
  else []

/-- `_apply_discourse_restructuring`. -/
def applyDiscourseRestructuring (text style : List Char) : List (List Char) :=
  changePerspective text ++ modifyIntensity text style ++ modifyRelationships text

/-- `_try_tense_transformation`. -/
def tryTenseTransformation (text : List Char) : Option (List Char) :=
  if hasSub text (lit (" is ")) && !(hasSub text (lit (" is being "))) then
    some (replAll (lit (" is ")) (lit (" is currently ")) text)
  else if !(([lit ("currently"), lit ("presently"), lit ("now"), lit ("today")]).any fun w =>
      hasSub (lowerL text) w) then
    some (lit ("Currently, ") ++ lowerL text)
  else none

/-- `_ensure_minimum_transformations`. -/
def ensureMinimumTransformations (text style : List Char) (needed : Nat) : List (List Char) :=
  let r1 :=
    if style = lit ("formal") &&
        !(([lit ("perhaps"), lit ("possibly"), lit ("likely"), lit ("generally")]).any fun w =>
          hasSub (lowerL text) w) then
      [lit ("Perhaps ") ++ lowerL text]
    else []
  let r2 := if r1.length < needed then r1 ++ [lit ("Generally speaking, ") ++ lowerL text] else r1
  let r3 :=
    if r2.length < needed && endsC text '.' then
      if style = lit ("formal") then
        if (lit ("the ")).isPrefixOf (lowerL text) then
          r2 ++ [lit ("It is noteworthy that ") ++ lowerL text]
        else
          r2 ++ [lit ("It is important to note that ") ++ lowerL text]
      else r2
    else r2
  let r4 :=
    if r3.length < needed then
      if style = lit ("casual") then r3 ++ [lit ("Actually, ") ++ lowerL text]
      else r3 ++ [lit ("It should be noted that ") ++ lowerL text]
    else r3
  let r5 :=
    if r4.length < needed then
      match tryTenseTransformation text with
      | some tv => if tv ≠ text then r4 ++ [tv] else r4
      | none => r4
    else r4
  r5.take needed

/-- First dedup pass of `_fallback_paraphrase` (drop empties, the stripped
source, and exact duplicates). -/
def dedupPhase1 (text : List Char) : List (List Char) → List (List Char) → List (List Char)
  | [], acc => acc
  | r :: rs, acc =>
    if r ≠ [] ∧ pyStrip r ≠ pyStrip text ∧ r ∉ acc then dedupPhase1 text rs (acc ++ [r])
    else dedupPhase1 text rs acc

/-- Second dedup pass of `_fallback_paraphrase` (over the guaranteed results). -/
def dedupPhase2 (text : List Char) : List (List Char) → List (List Char) → List (List Char)
  | [], acc => acc
  | r :: rs, acc =>
    if r ≠ [] ∧ r ∉ acc ∧ r ≠ text then dedupPhase2 text rs (acc ++ [r])
    else dedupPhase2 text rs acc

/-- The raw candidate pool of `_fallback_paraphrase` (methods 1 to 3, in order). -/
def resultsPool (text style : List Char) : List (List Char) :=
  applySyntacticTransformations text style ++ applySemanticSubstitutions text style ++
    applyDiscourseRestructuring text style

/-- `_fallback_paraphrase`. -/
def fallbackParaphrase (text style : List Char) (numAlternatives : Nat) : List (List Char) :=
  let unique := dedupPhase1 text (resultsPool text style) []
  let unique2 :=
    if unique.length < numAlternatives then
      dedupPhase2 text (ensureMinimumTransformations text style (numAlternatives - unique.length))
        unique
    else unique
  if unique2 ≠ [] then unique2.take numAlternatives else [text]

/-- `ParaphraseModel.paraphrase` delegates unconditionally to the fallback engine. -/
def paraphrase (text style : List Char) (numAlternatives : Nat) : List (List Char) :=
  fallbackParaphrase text style numAlternatives

end PM

/-! ## GrammarCorrector (src/scripts/grammar_corrector.py), rule-based path -/

namespace GC

open PyStr

/-- `[A-Z]`. -/
def isUpperAZ (c : Char) : Bool := 65 ≤ c.toNat && c.toNat ≤ 90

/-- An ASCII cased character. -/
def isCasedAZ (c : Char) : Bool := isUpperAZ c || isLowerAZ c

/-- Python `str.isupper` on a word (at least one cased character, all cased upper). -/
def pyStrIsUpper (w : List Char) : Bool :=
  w.any isCasedAZ && w.all fun c => !(isCasedAZ c) || isUpperAZ c

/-- One entry of the `corrections` audit list (`type` is `ctype` here). -/
structure Correction where
  original : List Char
  corrected : List Char
  ctype : List Char
  confidence : ℚ
deriving DecidableEq, Repr

/-- Python `str.endswith(c)`. -/
def endsC (s : List Char) (c : Char) : Bool := s.getLast? == some c

/-- Inner-capitalization fix for one word (`SHow` -> `Show`). -/
def fixInnerWord (w : List Char) : List Char × Option Correction :=
  match w with
  | c1 :: c2 :: t =>
    if isUpperAZ c1 && isUpperAZ c2 && !(pyStrIsUpper w) then
      let w2 := c1 :: lowerL (c2 :: t)
      (w2, some ⟨w, w2, lit ("Capitalization"), 95/100⟩)
    else (w, none)
  | _ => (w, none)

/-- Inner-capitalization pass over all words. -/
def fixInnerCaps : List (List Char) → List (List Char) × List Correction
  | [] => ([], [])
  | w :: ws =>
    let hd := fixInnerWord w
    let tl := fixInnerCaps ws
    (hd.1 :: tl.1, hd.2.toList ++ tl.2)

/-- Match a case-insensitive token sequence joined by `\s+`; returns consumed length. -/
def matchTokSeq : List (List Char) → List Char → Option Nat
  | [], _ => some 0
  | w :: ws, s =>
    match matchCI w s with
    | none => none
    | some rest =>
      match ws with
      | [] => some w.length
      | _ :: _ =>
        let wsRun := rest.takeWhile pyIsSpace
        if wsRun = [] then none
        else (matchTokSeq ws (rest.drop wsRun.length)).map fun n =>
          w.length + wsRun.length + n

/-- A word-fix rule: literal tokens, an optional captured alternation, the
replacement prefix, and whether a trailing `\b` is required. -/
structure FixSpec where
  pre : List (List Char)
  alts : List (List (List Char))
  repl : List Char
  withGroup : Bool
  trailB : Bool

/-- Matcher for a `FixSpec` at the current position. -/
def matchFix (spec : FixSpec) (prev : Option Char) (s : List Char) : Option (Nat × List Char) :=
  if !bdyPrev prev then none
  else
    match matchTokSeq spec.pre s with
    | none => none
    | some n =>
      if !spec.withGroup then
        if spec.trailB && !bdyNext (s.drop n) then none else some (n, spec.repl)
      else
        let rest := s.drop n
        let wsRun := rest.takeWhile pyIsSpace
        if wsRun = [] then none
        else
          let rest2 := rest.drop wsRun.length
          match spec.alts.findSome? (fun alt => matchTokSeq alt rest2) with
          | none => none
          | some m => some (n + wsRun.length + m, spec.repl ++ rest2.take m)

/-- The `word_fixes` table, in source order. -/
def wordFixes : List FixSpec := [
  ⟨[lit ("youre")], [], lit ("your"), false, true⟩,
  ⟨[ct ("you") ("re")],
    [[lit ("face")], [lit ("name")], [lit ("car")], [lit ("house")], [lit ("book")],
     [lit ("phone")], [lit ("problem")], [lit ("fault")], [lit ("turn")]],
    lit ("your "), true, false⟩,
  ⟨[lit ("there")], [[lit ("car")], [lit ("house")], [lit ("book")], [lit ("problem")]],
    lit ("their "), true, false⟩,
  ⟨[lit ("their")], [[lit ("going")], [lit ("coming")], [lit ("here")]],
    ct ("they") ("re "), true, false⟩,
  ⟨[lit ("its")], [[lit ("going")], [lit ("coming")], [lit ("time")]],
    ct ("it") ("s "), true, false⟩,
  ⟨[ct ("it") ("s")], [[lit ("color")], [lit ("size")], [lit ("name")], [lit ("place")]],
    lit ("its "), true, false⟩,
  ⟨[lit ("to")], [[lit ("much")], [lit ("many")], [lit ("late")], [lit ("early")],
     [lit ("big")], [lit ("small")]], lit ("too "), true, false⟩,
  ⟨[lit ("too")], [[lit ("go")], [lit ("come")], [lit ("see")], [lit ("the"), lit ("store")]],
    lit ("to "), true, false⟩,
  ⟨[lit ("then")], [[lit ("better")], [lit ("worse")], [lit ("bigger")], [lit ("smaller")]],
    lit ("than "), true, false⟩,
  ⟨[lit ("better"), lit ("then")], [], lit ("better than"), false, false⟩,
  ⟨[lit ("accept")], [[lit ("for")], [lit ("that")]], lit ("except "), true, false⟩,
  ⟨[lit ("except")], [[lit ("the"), lit ("offer")], [lit ("this"), lit ("gift")]],
    lit ("accept "), true, false⟩,
  ⟨[lit ("effect")], [[lit ("me")], [lit ("you")], [lit ("him")], [lit ("her")],
     [lit ("them")], [lit ("us")]], lit ("affect "), true, false⟩,
  ⟨[lit ("an"), lit ("affect")], [], lit ("an effect"), false, false⟩,
  ⟨[lit ("loose")], [[lit ("the"), lit ("game")], [lit ("weight")], [lit ("money")]],
    lit ("lose "), true, false⟩,
  ⟨[lit ("lose")], [[lit ("fitting")], [lit ("clothing")]], lit ("loose "), true, false⟩]

/-- Apply all `word_fixes`, recording a Word Choice entry per rule that fired. -/
def applyWordFixes (s : List Char) : List Char × List Correction :=
  wordFixes.foldl
    (fun st spec =>
      let s2 := pySubB (matchFix spec) st.1
      if s2 ≠ st.1 then
        (s2, st.2 ++ [⟨lit ("word confusion"), lit ("fixed word choice"),
          lit ("Word Choice"), 9/10⟩])
      else (s2, st.2))
    (s, [])

/-- The `contraction_fixes` table, in source order. -/
def contractionFixes : List (List Char × List Char) := [
  (lit ("couldnt"), ct ("couldn") ("t")),
  (lit ("cant"), ct ("can") ("t")),
  (lit ("dont"), ct ("don") ("t")),
  (lit ("wont"), ct ("won") ("t")),
  (lit ("isnt"), ct ("isn") ("t")),
  (lit ("arent"), ct ("aren") ("t")),
  (lit ("wasnt"), ct ("wasn") ("t")),
  (lit ("werent"), ct ("weren") ("t")),
  (lit ("hasnt"), ct ("hasn") ("t")),
  (lit ("havent"), ct ("haven") ("t")),
  (lit ("hadnt"), ct ("hadn") ("t")),
  (lit ("shouldnt"), ct ("shouldn") ("t")),
  (lit ("wouldnt"), ct ("wouldn") ("t")),
  (lit ("didnt"), ct ("didn") ("t")),
  (lit ("doesnt"), ct ("doesn") ("t"))]

/-- `\b wrong \b` (case-insensitive) with a fixed replacement. -/
def matchWordB (w repl : List Char) (prev : Option Char) (s : List Char) :
    Option (Nat × List Char) :=
  if bdyPrev prev then
    match matchCI w s with
    | some rest => if bdyNext rest then some (w.length, repl) else none
    | none => none
  else none

/-- Apply the contraction fixes, with their substring pre-check. -/
def applyContractionFixes (s : List Char) : List Char × List Correction :=
  contractionFixes.foldl
    (fun st wr =>
      if hasSub (lowerL st.1) wr.1 then
        let s2 := pySubB (matchWordB wr.1 wr.2) st.1
        if s2 ≠ st.1 then
          (s2, st.2 ++ [⟨wr.1, wr.2, lit ("Contraction"), 9/10⟩])
        else (s2, st.2)
      else st)
    (s, [])

/-- Greedy end search for `\bmany\s+.+\s+is\b`-style patterns: the largest
position `p` in `t` (the text after the keyword) at which `is\b` can close the
match, with whitespace immediately before it and a nonempty newline-free body. -/
def findBestP (t : List Char) : Nat → Option Nat
  | 0 => none
  | Nat.succ q =>
    if 3 ≤ q ∧ (matchCI (lit ("is")) (t.drop q)).isSome ∧ bdyNext (t.drop (q + 2)) ∧
        pyIsSpace (t.getD (q - 1) 'x') = true ∧
        ((t.take (q - 1)).drop 1).all (fun c => c ≠ Char.ofNat 10) then
      some q
    else findBestP t q

/-- Matcher for `\b<kw>\s+.+\s+is\b` with replacement `group0.replace(" is", " are")`. -/
def matchManyLike (kw : List Char) (prev : Option Char) (s : List Char) :
    Option (Nat × List Char) :=
  if !bdyPrev prev then none
  else
    match matchCI kw s with
    | none => none
    | some rest =>
      match rest.head? with
      | none => none
      | some c0 =>
        if !pyIsSpace c0 then none
        else
          match findBestP rest rest.length with
          | none => none
          | some p =>
            let total := kw.length + p + 2
            some (total, replAll (lit (" is")) (lit (" are")) (s.take total))

/-- The fixed-replacement agreement rules, in source order. -/
def agreementSimple : List (List (List Char) × List Char) := [
  ([lit ("people"), lit ("is")], lit ("people are")),
  ([lit ("we"), lit ("was")], lit ("we were")),
  ([lit ("they"), lit ("was")], lit ("they were")),
  ([lit ("you"), lit ("was")], lit ("you were")),
  ([lit ("i"), lit ("are")], lit ("I am")),
  ([lit ("he"), lit ("are")], lit ("he is")),
  ([lit ("she"), lit ("are")], lit ("she is")),
  ([lit ("it"), lit ("are")], lit ("it is"))]

/-- One agreement sub plus its audit entry when it fired. -/
def agreementStep (s : List Char) (f : Option Char → List Char → Option (Nat × List Char))
    (cs : List Correction) : List Char × List Correction :=
  let s2 := pySubB f s
  if s2 ≠ s then
    (s2, cs ++ [⟨lit ("subject-verb disagreement"), lit ("fixed agreement"),
      lit ("Subject-Verb Agreement"), 95/100⟩])
  else (s2, cs)

/-- The whole `agreement_fixes` pass. -/
def applyAgreementFixes (s : List Char) : List Char × List Correction :=
  let st1 := agreementSimple.foldl
    (fun st pr => agreementStep st.1 (matchFix ⟨pr.1, [], pr.2, false, true⟩) st.2) (s, [])
  let st2 := agreementStep st1.1 (matchManyLike (lit ("many"))) st1.2
  let st3 := agreementStep st2.1 (matchManyLike (lit ("few"))) st2.2
  agreementStep st3.1 (matchManyLike (lit ("several"))) st3.2

/-- Maximal `\w+` run ending in `ed` (case-insensitive), at least three characters. -/
def wordRunED (s : List Char) : Option (List Char) :=
  let run := s.takeWhile pyIsWordChar
  match run.reverse with
  | d :: e :: _ :: _ =>
    if Char.toLower d == 'd' && Char.toLower e == 'e' then some run else none
  | _ => none

/-- Matcher for `\bhave\s+(\w+ed)\s+yesterday\b` / `\bwill\s+(\w+ed)\s+tomorrow\b`. -/
def matchTenseED (kw tailKw rp1 rp2 : List Char) (prev : Option Char) (s : List Char) :
    Option (Nat × List Char) :=
  if !bdyPrev prev then none
  else
    match matchCI kw s with
    | none => none
    | some rest =>
      let ws1 := rest.takeWhile pyIsSpace
      if ws1 = [] then none
      else
        let r2 := rest.drop ws1.length
        match wordRunED r2 with
        | none => none
        | some run =>
          let r3 := r2.drop run.length
          let ws2 := r3.takeWhile pyIsSpace
          if ws2 = [] then none
          else
            let r4 := r3.drop ws2.length
            match matchCI tailKw r4 with
            | none => none
            | some rest2 =>
              if bdyNext rest2 then
                some (kw.length + ws1.length + run.length + ws2.length + tailKw.length,
                  rp1 ++ run ++ rp2)
              else none
    
/-- The `tense_fixes` pass. -/
def applyTenseFixes (s : List Char) : List Char × List Correction :=
  let step := fun (st : List Char × List Correction)
      (f : Option Char → List Char → Option (Nat × List Char)) =>
    let s2 := pySubB f st.1
    if s2 ≠ st.1 then
      (s2, st.2 ++ [⟨lit ("tense inconsistency"), lit ("fixed tense"),
        lit ("Verb Tense"), 85/100⟩])
    else (s2, st.2)
  let st1 := step (s, []) (matchTenseED (lit ("have")) (lit ("yesterday"))
    (lit ("had ")) (lit (" yesterday")))
  let st2 := step st1 (matchTenseED (lit ("will")) (lit ("tomorrow"))
    (lit ("will ")) (lit (" tomorrow")))
  let st3 := step st2 (matchFix ⟨[lit ("yesterday"), lit ("i"), lit ("will")], [],
    lit ("yesterday I"), false, true⟩)
  step st3 (matchFix ⟨[lit ("tomorrow"), lit ("i"), lit ("was")], [],
    lit ("tomorrow I will be"), false, true⟩)

/-- The negative-word alternation of the double-negative search and subs. -/
def negContractions : List (List Char) :=
  [ct ("don") ("t"), ct ("can") ("t"), ct ("won") ("t"), ct ("couldn") ("t"),
   ct ("wouldn") ("t"), ct ("shouldn") ("t")]

/-- The second alternation of the double-negative search. -/
def negWords : List (List Char) :=
  [lit ("no"), lit ("nothing"), lit ("nowhere"), lit ("nobody"), lit ("never")]

/-- Search for `\b(neg-word)\b` reachable through `.*` (no newline crossing). -/
def dnSearch2 : Option Char → List Char → Bool
  | prev, s =>
    (bdyPrev prev && negWords.any fun w =>
      match matchCI w s with
      | some rest => bdyNext rest
      | none => false) ||
    (match s with
     | [] => false
     | c :: cs => if c == Char.ofNat 10 then false else dnSearch2 (some c) cs)

/-- The guard `re.search(r"\b(don't|...)\b.*\b(no|...)\b", s, IGNORECASE)`. -/
def dnGuard (s : List Char) : Bool :=
  pySearch
    (fun prev t =>
      bdyPrev prev && negContractions.any fun w =>
        match matchCI w t with
        | some rest => bdyNext rest && dnSearch2 (t.drop (w.length - 1)).head? rest
        | none => false)
    s

/-- `\bnever\s+no\b` matcher with replacement `never any`. -/
def matchNeverNo (prev : Option Char) (s : List Char) : Option (Nat × List Char) :=
  matchFix ⟨[lit ("never"), lit ("no")], [], lit ("never any"), false, true⟩ prev s

/-- The double-negative pass. -/
def applyDoubleNegative (s : List Char) : List Char × List Correction :=
  if dnGuard s then
    let s1 := pySubB (matchWordB (lit ("nowhere")) (lit ("anywhere"))) s
    let s2 := pySubB (matchWordB (lit ("nothing")) (lit ("anything"))) s1
    let s3 := pySubB (matchWordB (lit ("nobody")) (lit ("anybody"))) s2
    let s4 := pySubB matchNeverNo s3
    if s4 ≠ s then
      (s4, [⟨lit ("double negative"), lit ("single negative"),
        lit ("Double Negative"), 9/10⟩])
    else (s4, [])
  else (s, [])

/-- Matcher for `\s+<punct>` with replacement `<punct>`. -/
def matchWsPunct (tgt : Char) (s : List Char) : Option (Nat × List Char) :=
  let run := s.takeWhile pyIsSpace
  if run = [] then none
  else if (s.drop run.length).head? == some tgt then some (run.length + 1, [tgt])
  else none

/-- The spacing pass. -/
def applySpacing (s : List Char) : List Char × List Correction :=
  let s1 := pySub (matchWsPunct ',') s
  let s2 := pySub (matchWsPunct '.') s1
  let s3 := pySub (matchWsPunct '!') s2
  let s4 := pySub (matchWsPunct '?') s3
  if s4 ≠ s then
    (s4, [⟨lit ("spacing issues"), lit ("fixed spacing"), lit ("Punctuation"), 8/10⟩])
  else (s4, [])

/-- `GrammarCorrector._rule_based_correct`. -/
def ruleBasedCorrect (text : List Char) : List Char × List Correction :=
  -- inner capitalization per word, then rejoin with single spaces
  let ic := fixInnerCaps (splitWs text)
  let c1 := joinSp ic.1
  let cs1 := ic.2
  -- sentence-initial capitalization
  let st2 :=
    match c1 with
    | [] => (c1, cs1)
    | c0 :: rest =>
      if !(isUpperAZ c0) then
        (Char.toUpper c0 :: rest,
          cs1 ++ [(⟨lit ("lowercase ") ++ [apos, c0, apos],
            lit ("uppercase ") ++ [apos, Char.toUpper c0, apos],
            lit ("Sentence Capitalization"), 95/100⟩ : Correction)])
      else (c1, cs1)
  -- word confusions
  let wf := applyWordFixes st2.1
  let st3 := (wf.1, st2.2 ++ wf.2)
  -- contractions
  let cf := applyContractionFixes st3.1
  let st4 := (cf.1, st3.2 ++ cf.2)
  -- subject-verb agreement
  let af := applyAgreementFixes st4.1
  let st5 := (af.1, st4.2 ++ af.2)
  -- verb tense
  let tf := applyTenseFixes st5.1
  let st6 := (tf.1, st5.2 ++ tf.2)
  -- double negatives
  let dn := applyDoubleNegative st6.1
  let st7 := (dn.1, st6.2 ++ dn.2)
  -- spacing and punctuation
  let sp := applySpacing st7.1
  let st8 := (sp.1, st7.2 ++ sp.2)
  -- sentence ending
  if st8.1 ≠ [] ∧ !(endsC st8.1 '.') ∧ !(endsC st8.1 '!') ∧ !(endsC st8.1 '?') then
    (st8.1 ++ ['.'],
      st8.2 ++ [⟨lit ("missing punctuation"), lit ("added period"),
        lit ("Sentence Ending"), 9/10⟩])
  else st8

/-- The structured result of `correct_grammar`. -/
structure GrammarResult where
  correctedText : List Char
  corrections : List Correction
  confidence : ℚ
deriving DecidableEq, Repr

/-- `GrammarCorrector.correct_grammar` in the model-less environment (the AI
adapter is absent, so the rule-based path is taken and confidence is `0.7`). -/
def correctGrammar (text level : List Char) : GrammarResult :=
  let rc := ruleBasedCorrect text
  { correctedText := rc.1, corrections := rc.2, confidence := 7/10 }

/-- The `improvements` pair list of `_score_correction`, in source order. -/
def improvements : List (List Char × List Char) := [
  (lit ("youre"), lit ("your")),
  (lit ("Showe"), lit ("Show")),
  (lit ("hte"), lit ("the")),
  (lit ("teh"), lit ("the")),
  (lit ("adn"), lit ("and")),
  (lit ("there"), lit ("their")),
  (lit ("SHow"), lit ("Show")),
  (lit ("cant"), ct ("can") ("t")),
  (lit ("dont"), ct ("don") ("t")),
  (lit ("wont"), ct ("won") ("t")),
  (lit ("was"), lit ("were")),
  (lit ("nowhere"), lit ("anywhere")),
  (lit ("couldnt"), ct ("couldn") ("t")),
  (lit ("shouldnt"), ct ("shouldn") ("t")),
  (lit ("wouldnt"), ct ("wouldn") ("t"))]

/-- The noun alternation of the your/you're scoring regexes. -/
def scoreNouns : List (List Char) :=
  [lit ("face"), lit ("name"), lit ("car"), lit ("house"), lit ("book"),
   lit ("phone"), lit ("problem"), lit ("fault"), lit ("turn")]

/-- `re.search(r"<kw>\s+(face|...)", s, IGNORECASE)` with no word boundaries. -/
def searchKwNoun (kw : List Char) (s : List Char) : Bool :=
  s.tails.any fun t =>
    match matchCI kw t with
    | none => false
    | some rest =>
      let wsRun := rest.takeWhile pyIsSpace
      if wsRun = [] then false
      else scoreNouns.any fun n => (matchCI n (rest.drop wsRun.length)).isSome

/-- One `improvements` check of `_score_correction`: `+0.15` when the wrong form
appears in the lowered original and the right form in the lowered candidate. -/
def improveStep (original corrected : List Char) (acc : ℚ) (wr : List Char × List Char) : ℚ :=
  if hasSub (lowerL original) wr.1 && hasSub (lowerL corrected) wr.2 then acc + 15/100 else acc

/-- `+0.1` for a capitalized first letter. -/
def scoreCapBonus (corrected : List Char) : ℚ :=
  if (corrected.head?.map isUpperAZ).getD false then 1/10 else 0

/-- `+0.1` for terminal punctuation. -/
def scoreEndBonus (corrected : List Char) : ℚ :=
  if endsC corrected '.' || endsC corrected '!' || endsC corrected '?' then 1/10 else 0

/-- `+0.2` when the candidate differs (case-insensitively) from the source. -/
def scoreDiffBonus (original corrected : List Char) : ℚ :=
  if lowerL corrected ≠ lowerL original then 2/10 else 0

/-- `-0.3` for an incorrect you-are + noun construction in the candidate. -/
def scorePenalty (corrected : List Char) : ℚ :=
  if searchKwNoun (ct ("you") ("re")) corrected then 3/10 else 0

/-- `+0.2` for a correct your + noun construction in the candidate. -/
def scoreYourBonus (corrected : List Char) : ℚ :=
  if searchKwNoun (lit ("your")) corrected then 2/10 else 0

/-- `GrammarCorrector._score_correction` (floats modelled as exact rationals). -/
def scoreCorrection (original corrected : List Char) : ℚ :=
  if corrected = [] ∨ pyStrip corrected = [] then 0
  else
    let origWords : ℚ := ((splitWs original).length : ℚ)
    let corrWords : ℚ := ((splitWs corrected).length : ℚ)
    if corrWords < origWords * (1/2) ∨ corrWords > origWords * 2 then 3/10
    else
      let s4 := 1/2 + scoreCapBonus corrected + scoreEndBonus corrected +
        scoreDiffBonus original corrected
      let s5 := improvements.foldl (improveStep original corrected) s4
      min 1 (s5 - scorePenalty corrected + scoreYourBonus corrected)

end GC

namespace PyStr

theorem toNat_ofNat_valid {n : Nat} (h : n < 55296) : (Char.ofNat n).toNat = n := by
  unfold Char.ofNat
  rw [dif_pos (Or.inl h)]
  rfl

theorem toUpper_toNat_of_lower {c : Char} (h1 : 97 ≤ c.toNat) (h2 : c.toNat ≤ 122) :
    (Char.toUpper c).toNat = c.toNat - 32 := by
  have hv : c.toNat - 32 < 55296 := by omega
  show (if c.toNat ≥ 97 ∧ c.toNat ≤ 122 then Char.ofNat (c.toNat - 32) else c).toNat =
    c.toNat - 32
  rw [if_pos ⟨h1, h2⟩]
  exact toNat_ofNat_valid hv

theorem toUpper_of_not_lower {c : Char} (h : ¬ (97 ≤ c.toNat ∧ c.toNat ≤ 122)) :
    Char.toUpper c = c := by
  show (if c.toNat ≥ 97 ∧ c.toNat ≤ 122 then Char.ofNat (c.toNat - 32) else c) = c
  rw [if_neg (by exact fun hc => h ⟨hc.1, hc.2⟩)]

theorem toUpper_toUpper (c : Char) : Char.toUpper (Char.toUpper c) = Char.toUpper c := by
  by_cases h : 97 ≤ c.toNat ∧ c.toNat ≤ 122
  · have h2 := toUpper_toNat_of_lower h.1 h.2
    apply toUpper_of_not_lower
    rw [h2]
    omega
  · rw [toUpper_of_not_lower h, toUpper_of_not_lower h]

theorem isLowerAZ_iff {c : Char} : isLowerAZ c = true ↔ 97 ≤ c.toNat ∧ c.toNat ≤ 122 := by
  simp [isLowerAZ]

theorem toUpper_ne_dot {c : Char} (h : isLowerAZ c = true) : (Char.toUpper c == '.') = false := by
  rw [isLowerAZ_iff] at h
  have h2 := toUpper_toNat_of_lower h.1 h.2
  simp only [beq_eq_false_iff_ne, ne_eq]
  intro hEq
  rw [hEq] at h2
  have hdot : ('.' : Char).toNat = 46 := rfl
  omega

theorem isLowerAZ_toUpper_false {c : Char} (h : isLowerAZ c = true) :
    isLowerAZ (Char.toUpper c) = false := by
  rw [isLowerAZ_iff] at h
  have h2 := toUpper_toNat_of_lower h.1 h.2
  simp only [isLowerAZ, Bool.and_eq_false_iff]
  left
  simp only [decide_eq_false_iff_not]
  omega

end PyStr

namespace SP

open PyStr

theorem fixCapSub_cons3 (a b c : Char) (t : List Char) :
    fixCapSub (a :: b :: c :: t) =
      if a == '.' && b == ' ' && isLowerAZ c then a :: b :: Char.toUpper c :: fixCapSub t
      else a :: fixCapSub (b :: c :: t) := rfl

theorem fixCapSub_head (s : List Char) : (fixCapSub s).head? = s.head? := by
  match s with
  | [] => rfl
  | [a] => rfl
  | [a, b] => rfl
  | a :: b :: c :: t =>
    rw [fixCapSub_cons3]
    by_cases h : (a == '.' && b == ' ' && isLowerAZ c) = true
    · rw [if_pos h]
      simp
    · rw [if_neg h]
      simp

theorem fixCapSub_second (s : List Char) : (fixCapSub s).tail.head? = s.tail.head? := by
  match s with
  | [] => rfl
  | [a] => rfl
  | [a, b] => rfl
  | a :: b :: c :: t =>
    rw [fixCapSub_cons3]
    by_cases h : (a == '.' && b == ' ' && isLowerAZ c) = true
    · rw [if_pos h]
      simp
    · rw [if_neg h]
      simp only [List.tail_cons, List.head?_cons]
      exact fixCapSub_head (b :: c :: t)

theorem fixCapSub_cons_ne (x : Char) (t : List Char) (hx : (x == '.') = false) :
    fixCapSub (x :: t) = x :: fixCapSub t := by
  match t with
  | [] => rfl
  | [a] => rfl
  | a :: b :: t2 =>
    rw [fixCapSub_cons3, if_neg]
    simp [hx]

theorem fixCapSub_idem_aux : ∀ n (s : List Char), s.length ≤ n →
    fixCapSub (fixCapSub s) = fixCapSub s := by
  intro n
  induction n with
  | zero =>
    intro s hs
    have hnil : s = [] := List.length_eq_zero.mp (Nat.le_zero.mp hs)
    subst hnil
    rfl
  | succ n IH =>
    intro s hs
    match s with
    | [] => rfl
    | [a] => rfl
    | [a, b] => rfl
    | a :: b :: c :: t =>
      simp only [List.length_cons] at hs
      rw [fixCapSub_cons3]
      by_cases h : (a == '.' && b == ' ' && isLowerAZ c) = true
      · rw [if_pos h]
        have hb : b = ' ' := by
          simp only [Bool.and_eq_true, beq_iff_eq] at h
          exact h.1.2
        have hc : isLowerAZ c = true := by
          simp only [Bool.and_eq_true] at h
          exact h.2
        rw [fixCapSub_cons3, if_neg (by simp [isLowerAZ_toUpper_false hc])]
        rw [fixCapSub_cons_ne b _ (by rw [hb]; rfl)]
        rw [fixCapSub_cons_ne _ _ (toUpper_ne_dot hc)]
        rw [IH t (by omega)]
      · rw [if_neg h]
        have h1 := fixCapSub_head (b :: c :: t)
        have h2 := fixCapSub_second (b :: c :: t)
        cases hY : fixCapSub (b :: c :: t) with
        | nil => rw [hY] at h1; simp at h1
        | cons d ds =>
          rw [hY] at h1 h2
          cases ds with
          | nil => simp at h2
          | cons e es =>
            simp only [List.head?_cons, Option.some.injEq] at h1
            simp only [List.tail_cons, List.head?_cons, Option.some.injEq] at h2
            rw [fixCapSub_cons3]
            rw [if_neg (by rw [h1, h2]; exact h)]
            rw [← hY]
            rw [IH (b :: c :: t) (by simp only [List.length_cons]; omega)]

theorem fixCapSub_idem (s : List Char) : fixCapSub (fixCapSub s) = fixCapSub s :=
  fixCapSub_idem_aux s.length s (Nat.le_refl _)

theorem fixCapitalization_idem (s : List Char) :
    fixCapitalization (fixCapitalization s) = fixCapitalization s := by
  unfold fixCapitalization
  cases s with
  | nil => rfl
  | cons c cs =>
    have hh := fixCapSub_head (upFirst (c :: cs))
    have h1 : upFirst (fixCapSub (upFirst (c :: cs))) = fixCapSub (upFirst (c :: cs)) := by
      cases hEq : fixCapSub (upFirst (c :: cs)) with
      | nil => rfl
      | cons d ds =>
        rw [hEq] at hh
        simp only [upFirst, List.head?_cons, Option.some.injEq] at hh
        simp [upFirst, hh, toUpper_toUpper]
    rw [h1, fixCapSub_idem]

end SP

namespace GC

open PyStr

theorem improveStep_foldl_ge (o c : List Char) :
    ∀ (l : List (List Char × List Char)) (i : ℚ), i ≤ l.foldl (improveStep o c) i := by
  intro l
  induction l with
  | nil => intro i; simp
  | cons p ps IH =>
    intro i
    simp only [List.foldl_cons]
    refine le_trans ?_ (IH _)
    unfold improveStep
    split <;> norm_num

theorem scoreCapBonus_bounds (c : List Char) : 0 ≤ scoreCapBonus c ∧ scoreCapBonus c ≤ 1/10 := by
  unfold scoreCapBonus; split <;> norm_num

theorem scoreEndBonus_bounds (c : List Char) : 0 ≤ scoreEndBonus c ∧ scoreEndBonus c ≤ 1/10 := by
  unfold scoreEndBonus; split <;> norm_num

theorem scoreDiffBonus_bounds (o c : List Char) :
    0 ≤ scoreDiffBonus o c ∧ scoreDiffBonus o c ≤ 2/10 := by
  unfold scoreDiffBonus; split <;> norm_num

theorem scorePenalty_bounds (c : List Char) : 0 ≤ scorePenalty c ∧ scorePenalty c ≤ 3/10 := by
  unfold scorePenalty; split <;> norm_num

theorem scoreYourBonus_bounds (c : List Char) :
    0 ≤ scoreYourBonus c ∧ scoreYourBonus c ≤ 2/10 := by
  unfold scoreYourBonus; split <;> norm_num

end GC

/-- C8: for every pair of strings, the candidate-scoring function returns a
score in the closed interval [0, 1], despite the unclamped penalty. -/
theorem C8_score_in_unit_interval (original corrected : List Char) :
    0 ≤ GC.scoreCorrection original corrected ∧ GC.scoreCorrection original corrected ≤ 1 := by
  unfold GC.scoreCorrection
  dsimp only
  split
  · exact ⟨le_refl 0, by norm_num⟩
  · split
    · constructor <;> norm_num
    · have hcap := GC.scoreCapBonus_bounds corrected
      have hend := GC.scoreEndBonus_bounds corrected
      have hdiff := GC.scoreDiffBonus_bounds original corrected
      have hpen := GC.scorePenalty_bounds corrected
      have hyour := GC.scoreYourBonus_bounds corrected
      have hfold := GC.improveStep_foldl_ge original corrected GC.improvements
        (1/2 + GC.scoreCapBonus corrected + GC.scoreEndBonus corrected +
          GC.scoreDiffBonus original corrected)
      constructor
      · rw [le_min_iff]
        exact ⟨by norm_num, by linarith [hcap.1, hend.1, hdiff.1, hpen.2, hyour.1]⟩
      · exact min_le_left _ _

namespace PM

open PyStr

theorem dedupPhase1_sound (text : List Char) :
    ∀ (rs acc : List (List Char)), acc.Nodup → (∀ x ∈ acc, pyStrip x ≠ pyStrip text) →
      (dedupPhase1 text rs acc).Nodup ∧
        (∀ x ∈ dedupPhase1 text rs acc, pyStrip x ≠ pyStrip text) := by
  intro rs
  induction rs with
  | nil => intro acc h1 h2; exact ⟨h1, h2⟩
  | cons r rest IH =>
    intro acc h1 h2
    unfold dedupPhase1
    split
    · rename_i hcond
      apply IH
      · simp only [List.nodup_append, List.nodup_cons, List.nodup_nil, and_true,
          List.not_mem_nil, not_false_iff, List.disjoint_singleton]
        exact ⟨h1, trivial, fun hmem => hcond.2.2 hmem⟩
      · intro x hx
        rcases List.mem_append.mp hx with hx1 | hx2
        · exact h2 x hx1
        · rw [List.mem_singleton.mp hx2]
          exact hcond.2.1
    · exact IH acc h1 h2

theorem dedupPhase2_sound (text : List Char) :
    ∀ (rs acc : List (List Char)), acc.Nodup → (∀ x ∈ acc, x ≠ text) →
      (dedupPhase2 text rs acc).Nodup ∧ (∀ x ∈ dedupPhase2 text rs acc, x ≠ text) := by
  intro rs
  induction rs with
  | nil => intro acc h1 h2; exact ⟨h1, h2⟩
  | cons r rest IH =>
    intro acc h1 h2
    unfold dedupPhase2
    split
    · rename_i hcond
      apply IH
      · simp only [List.nodup_append, List.nodup_cons, List.nodup_nil, and_true,
          List.not_mem_nil, not_false_iff, List.disjoint_singleton]
        exact ⟨h1, trivial, fun hmem => hcond.2.1 hmem⟩
      · intro x hx
        rcases List.mem_append.mp hx with hx1 | hx2
        · exact h2 x hx1
        · rw [List.mem_singleton.mp hx2]
          exact hcond.2.2
    · exact IH acc h1 h2

theorem fallbackParaphrase_cases (text style : List Char) (k : Nat) :
    fallbackParaphrase text style k = [text] ∨
      ((fallbackParaphrase text style k).Nodup ∧ text ∉ fallbackParaphrase text style k) := by
  have hpool : ∀ (u : List (List Char)), u.Nodup → (∀ x ∈ u, x ≠ text) →
      (if u ≠ [] then u.take k else [text]) = [text] ∨
        ((if u ≠ [] then u.take k else [text]).Nodup ∧
          text ∉ (if u ≠ [] then u.take k else [text])) := by
    intro u hn hx
    split
    · right
      exact ⟨(List.take_sublist _ _).nodup hn,
        fun hm => hx text ((List.take_subset _ _) hm) rfl⟩
    · left; rfl
  have h1 := dedupPhase1_sound text (resultsPool text style) [] List.nodup_nil
    (by intro x hx; cases hx)
  unfold fallbackParaphrase
  dsimp only
  split
  · apply hpool
    · exact (dedupPhase2_sound text _ _ h1.1
        (fun x hx hEq => h1.2 x hx (by rw [hEq]))).1
    · exact (dedupPhase2_sound text _ _ h1.1
        (fun x hx hEq => h1.2 x hx (by rw [hEq]))).2
  · apply hpool
    · exact h1.1
    · exact fun x hx hEq => h1.2 x hx (by rw [hEq])

end PM

namespace PM

theorem fallbackParaphrase_length (text style : List Char) (k : Nat) (hk : 1 ≤ k) :
    1 ≤ (fallbackParaphrase text style k).length ∧
      (fallbackParaphrase text style k).length ≤ k := by
  have hpool : ∀ (u : List (List Char)),
      1 ≤ (if u ≠ [] then u.take k else [text]).length ∧
        (if u ≠ [] then u.take k else [text]).length ≤ k := by
    intro u
    split
    · rename_i hne
      rw [List.length_take]
      have : 1 ≤ u.length := List.length_pos.mpr hne
      constructor <;> omega
    · simpa using hk
  unfold fallbackParaphrase
  dsimp only
  split
  · exact hpool _
  · exact hpool _

end PM

namespace SP

theorem spLoop_length (text style primary : List Char) :
    ∀ (rem i : Nat) (results : List (List Char)),
      results.length ≤ (spLoop text style primary i rem results).length ∧
        (spLoop text style primary i rem results).length ≤ results.length + rem := by
  intro rem
  induction rem with
  | zero => intro i results; exact ⟨Nat.le_refl _, Nat.le_refl _⟩
  | succ n IH =>
    intro i results
    unfold spLoop
    dsimp only
    split
    · have h := IH (i + 1) (results ++ [paraphraseText text style (i + 1)])
      simp only [List.length_append, List.length_singleton] at h
      constructor <;> omega
    · have h := IH (i + 1) results
      constructor <;> omega

theorem paraphrase_length (text style : List Char) (k : Nat) (hk : 1 ≤ k) :
    1 ≤ (paraphrase text style k).length ∧ (paraphrase text style k).length ≤ k := by
  unfold paraphrase
  dsimp only
  have h := spLoop_length text style (paraphraseText text style 0) (k - 1) 0
    [paraphraseText text style 0]
  simp only [List.length_singleton] at h
  constructor <;> omega

end SP

/-! ## Spec-side definitions and randomness modelling -/

/-- The case-insensitive, whitespace-collapsed normalization named by the spec's
Candidate invariant (written from the spec's words, for comparison with the
engine's behaviour): lower-case everything, then collapse whitespace runs. -/
def specNormalize (s : List Char) : List Char :=
  PyStr.joinSp (PyStr.splitWs (PyStr.lowerL s))

namespace PM

/-- The source imports the `random` module but no generator consults it; the
ambient random state is modelled as an explicit seed that the engine receives
and, mirroring the source, never reads. -/
def paraphraseSeeded (seed : Nat) (text style : List Char) (k : Nat) : List (List Char) :=
  fallbackParaphrase text style k

end PM

namespace SP

/-- Seed-threaded `SimpleParaphraser.paraphrase`; the seed models the imported
but unconsulted `random` module. -/
def paraphraseSeeded (seed : Nat) (text style : List Char) (k : Nat) : List (List Char) :=
  paraphrase text style k

end SP

set_option maxRecDepth 40000

/-- C1 (amended): for every text, style and requested count, the fallback engine
returns either the singleton source text (no transformation found) or a list of
pairwise-distinct candidates (exact string equality) none of which is the source
text; distinctness does not hold up to case/whitespace normalization. -/
theorem C1_exact_distinctness (text style : List Char) (k : Nat) :
    PM.paraphrase text style k = [text] ∨
      ((PM.paraphrase text style k).Nodup ∧ text ∉ PM.paraphrase text style k) :=
  PM.fallbackParaphrase_cases text style k

/-- C1 counterexample: normalized distinctness fails on the code.  With the
double-spaced source Hello--there., the returned list contains a candidate equal
to the source under case/whitespace normalization; and for a formal request the
list can contain two distinct candidates with the same normalization. -/
theorem C1_counterexample :
    (PM.fallbackParaphrase (PyStr.lit ("Hello  there.")) (PyStr.lit ("simple")) 4 =
        [PyStr.lit ("Also, hello  there."), PyStr.lit ("Plus, hello  there."),
         PyStr.lit ("Hello  there!"), PyStr.lit ("Hello there.")] ∧
      specNormalize (PyStr.lit ("Hello there.")) =
        specNormalize (PyStr.lit ("Hello  there."))) ∧
    (PyStr.lit ("I cannot  fly.") ∈
        PM.fallbackParaphrase (PyStr.lit ("I ") ++ PyStr.ct ("can") ("t  fly."))
          (PyStr.lit ("formal")) 6 ∧
      PyStr.lit ("I cannot fly.") ∈
        PM.fallbackParaphrase (PyStr.lit ("I ") ++ PyStr.ct ("can") ("t  fly."))
          (PyStr.lit ("formal")) 6 ∧
      PyStr.lit ("I cannot  fly.") ≠ PyStr.lit ("I cannot fly.") ∧
      specNormalize (PyStr.lit ("I cannot  fly.")) =
        specNormalize (PyStr.lit ("I cannot fly."))) := by decide

/-- C2: for every non-empty text, any style and any k at least 1, both paraphrase
operations return between 1 and k candidates. -/
theorem C2_length_bounds (text style : List Char) (k : Nat) (hk : 1 ≤ k) :
    (1 ≤ (PM.paraphrase text style k).length ∧ (PM.paraphrase text style k).length ≤ k) ∧
      (1 ≤ (SP.paraphrase text style k).length ∧ (SP.paraphrase text style k).length ≤ k) :=
  ⟨PM.fallbackParaphrase_length text style k hk, SP.paraphrase_length text style k hk⟩

/-- Witness for C2 at text Go., style formal, k = 2. -/
theorem C2_length_bounds_witness :
    (1 ≤ (PM.paraphrase (PyStr.lit ("Go.")) (PyStr.lit ("formal")) 2).length ∧
        (PM.paraphrase (PyStr.lit ("Go.")) (PyStr.lit ("formal")) 2).length ≤ 2) ∧
      (1 ≤ (SP.paraphrase (PyStr.lit ("Go.")) (PyStr.lit ("formal")) 2).length ∧
        (SP.paraphrase (PyStr.lit ("Go.")) (PyStr.lit ("formal")) 2).length ≤ 2) :=
  C2_length_bounds (PyStr.lit ("Go.")) (PyStr.lit ("formal")) 2 (by decide)

/-- C3 counterexample: the rule-based corrector leaves the misspelling teh
untouched: the corrected text does not contain the cat (even case-insensitively)
and no word-choice/spelling correction entry is produced. -/
theorem C3_counterexample :
    PyStr.hasSub (PyStr.lowerL (GC.ruleBasedCorrect (PyStr.lit ("teh cat is happy"))).1)
        (PyStr.lit ("the cat")) = false ∧
      PyStr.lit ("Word Choice") ∉
        ((GC.ruleBasedCorrect (PyStr.lit ("teh cat is happy"))).2.map fun c => c.ctype) ∧
      PyStr.lit ("Contraction") ∉
        ((GC.ruleBasedCorrect (PyStr.lit ("teh cat is happy"))).2.map fun c => c.ctype) := by
  decide

/-- C3 (amended): on input teh cat is happy the rule-based corrector returns
Teh cat is happy. with exactly a Sentence Capitalization and a Sentence Ending
entry; no spelling fix fires because teh is not in any rule-based fix table. -/
theorem C3_amended :
    (GC.ruleBasedCorrect (PyStr.lit ("teh cat is happy"))).1 =
        PyStr.lit ("Teh cat is happy.") ∧
      ((GC.ruleBasedCorrect (PyStr.lit ("teh cat is happy"))).2.map fun c => c.ctype) =
        [PyStr.lit ("Sentence Capitalization"), PyStr.lit ("Sentence Ending")] := by
  decide

/-- C5 counterexample: with style casual and a deficit of one, the first (and
only) candidate the guaranteed-fallback generator produces is the
Generally-speaking prefix, not the Actually hedge. -/
theorem C5_counterexample :
    PM.ensureMinimumTransformations (PyStr.lit ("Go.")) (PyStr.lit ("casual")) 1 =
        [PyStr.lit ("Generally speaking, go.")] ∧
      PyStr.lit ("Actually, go.") ∉
        PM.ensureMinimumTransformations (PyStr.lit ("Go.")) (PyStr.lit ("casual")) 1 := by
  decide

/-- C7: for any non-empty text, any style/level and any k at least 1, the engine
and the grammar corrector are total: a non-empty candidate list is returned, and
the correction object carries the rule-based text, the audit list and
confidence 0.7. -/
theorem C7_totality (text style level : List Char) (k : Nat) (hk : 1 ≤ k) :
    PM.fallbackParaphrase text style k ≠ [] ∧
      GC.correctGrammar text level =
        { correctedText := (GC.ruleBasedCorrect text).1,
          corrections := (GC.ruleBasedCorrect text).2,
          confidence := 7/10 } := by
  constructor
  · have h := PM.fallbackParaphrase_length text style k hk
    exact List.length_pos.mp h.1
  · rfl

/-- Witness for C7 at text teh cat is happy, style formal, level basic, k = 2. -/
theorem C7_totality_witness :
    PM.fallbackParaphrase (PyStr.lit ("teh cat is happy")) (PyStr.lit ("formal")) 2 ≠ [] ∧
      GC.correctGrammar (PyStr.lit ("teh cat is happy")) (PyStr.lit ("basic")) =
        { correctedText := (GC.ruleBasedCorrect (PyStr.lit ("teh cat is happy"))).1,
          corrections := (GC.ruleBasedCorrect (PyStr.lit ("teh cat is happy"))).2,
          confidence := 7/10 } :=
  C7_totality (PyStr.lit ("teh cat is happy")) (PyStr.lit ("formal")) (PyStr.lit ("basic")) 2
    (by decide)

/-- C10: the paraphrase operations are deterministic: the modelled random seed
(the imported but unconsulted random module) never influences the output, which
is a pure function of (text, style, k). -/
theorem C10_deterministic (seed1 seed2 : Nat) (text style : List Char) (k : Nat) :
    PM.paraphraseSeeded seed1 text style k = PM.paraphraseSeeded seed2 text style k ∧
      SP.paraphraseSeeded seed1 text style k = SP.paraphraseSeeded seed2 text style k :=
  ⟨rfl, rfl⟩

/-- C6 counterexample: formal-style output can retain a mapped contraction and
casual-style output a mapped expansion: the connector candidates bypass the
style-grammar pass. -/
theorem C6_counterexample :
    (PM.fallbackParaphrase (PyStr.lit ("I ") ++ PyStr.ct ("can") ("t go."))
        (PyStr.lit ("formal")) 2 =
        [PyStr.lit ("Furthermore, i ") ++ PyStr.ct ("can") ("t go."),
         PyStr.lit ("Additionally, i ") ++ PyStr.ct ("can") ("t go.")] ∧
      PyStr.hasSub (PyStr.lit ("Furthermore, i ") ++ PyStr.ct ("can") ("t go."))
        (PyStr.ct ("can") ("t")) = true) ∧
    (PM.fallbackParaphrase (PyStr.lit ("I do not go.")) (PyStr.lit ("casual")) 2 =
        [PyStr.lit ("Also, i do not go."), PyStr.lit ("Plus, i do not go.")] ∧
      PyStr.hasSub (PyStr.lit ("Also, i do not go.")) (PyStr.lit ("do not")) = true) := by
  decide

theorem head?_take_succ {α : Type} (l : List α) (n : Nat) :
    (l.take (n + 1)).head? = l.head? := by
  cases l <;> simp

/-- C5 (amended): the guaranteed-fallback strategies run in the order
Perhaps-hedge (formal only), Generally-speaking prefix (unconditional), formal
meta-frame (only when the text ends in a period), Actually-hedge for casual /
It-should-be-noted for other styles, tense perturbation; in particular, for
every input with style casual and a deficit of at least one, the first
candidate produced is Generally speaking, prepended to the lowered sentence
(not the Actually hedge). -/
theorem C5_fallback_first_casual (text : List Char) (needed : Nat) :
    (PM.ensureMinimumTransformations text (PyStr.lit ("casual")) (needed + 1)).head? =
      some (PyStr.lit ("Generally speaking, ") ++ PyStr.lowerL text) := by
  unfold PM.ensureMinimumTransformations
  have hcf := iff_false_intro (show ¬ (PyStr.lit ("casual") = PyStr.lit ("formal")) by decide)
  have hcc := iff_true_intro (show PyStr.lit ("casual") = PyStr.lit ("casual") from rfl)
  simp only [hcf, hcc, decide_False, Bool.false_and, Bool.false_eq_true, if_false,
    List.length_nil, List.nil_append, Nat.zero_lt_succ, if_true, ite_self]
  rw [head?_take_succ]
  repeat' split
  all_goals simp

/-- C4 counterexample: for the single-token input Go. with style formal and
k = 2, the engine returns only connector-derived candidates; neither expected
guaranteed-fallback framing is returned, and no candidate originates from the
guaranteed-fallback generator (whose full output at this input is listed and is
disjoint from the returned list). -/
theorem C4_counterexample :
    PM.fallbackParaphrase (PyStr.lit ("Go.")) (PyStr.lit ("formal")) 2 =
        [PyStr.lit ("Furthermore, go."), PyStr.lit ("Additionally, go.")] ∧
      PyStr.lit ("Perhaps go.") ∉
        PM.fallbackParaphrase (PyStr.lit ("Go.")) (PyStr.lit ("formal")) 2 ∧
      PyStr.lit ("It is important to note that go.") ∉
        PM.fallbackParaphrase (PyStr.lit ("Go.")) (PyStr.lit ("formal")) 2 ∧
      PM.ensureMinimumTransformations (PyStr.lit ("Go.")) (PyStr.lit ("formal")) 5 =
        [PyStr.lit ("Perhaps go."), PyStr.lit ("Generally speaking, go."),
         PyStr.lit ("It is important to note that go."),
         PyStr.lit ("It should be noted that go."), PyStr.lit ("Currently, go.")] ∧
      ((PM.fallbackParaphrase (PyStr.lit ("Go.")) (PyStr.lit ("formal")) 2).all fun r =>
        !((PM.ensureMinimumTransformations (PyStr.lit ("Go.")) (PyStr.lit ("formal")) 5).contains
          r)) = true := by
  decide

/-- C4 (amended): for any input not ending in a question or exclamation mark,
the connector strategy always contributes the Furthermore/Additionally
candidates to the formal candidate pool, so for Go. with k = 2 the engine
returns two connector-derived candidates distinct from the source; the
guaranteed-fallback generator is not consulted because the pool is already
large enough. -/
theorem C4_connector_candidates (text : List Char)
    (h1 : PM.endsC text '?' = false) (h2 : PM.endsC text '!' = false) :
    (PyStr.lit ("Furthermore, ") ++ PyStr.lowerL text ∈
        PM.resultsPool text (PyStr.lit ("formal")) ∧
      PyStr.lit ("Additionally, ") ++ PyStr.lowerL text ∈
        PM.resultsPool text (PyStr.lit ("formal"))) ∧
      PM.fallbackParaphrase (PyStr.lit ("Go.")) (PyStr.lit ("formal")) 2 =
        [PyStr.lit ("Furthermore, go."), PyStr.lit ("Additionally, go.")] := by
  refine ⟨?_, by decide⟩
  unfold PM.resultsPool PM.applySyntacticTransformations PM.addSentenceConnectors
  rw [h1, h2]
  simp [List.mem_append]

/-- Witness for C4 (amended) at text Go. -/
theorem C4_connector_candidates_witness :
    (PyStr.lit ("Furthermore, ") ++ PyStr.lowerL (PyStr.lit ("Go.")) ∈
        PM.resultsPool (PyStr.lit ("Go.")) (PyStr.lit ("formal")) ∧
      PyStr.lit ("Additionally, ") ++ PyStr.lowerL (PyStr.lit ("Go.")) ∈
        PM.resultsPool (PyStr.lit ("Go.")) (PyStr.lit ("formal"))) ∧
      PM.fallbackParaphrase (PyStr.lit ("Go.")) (PyStr.lit ("formal")) 2 =
        [PyStr.lit ("Furthermore, go."), PyStr.lit ("Additionally, go.")] :=
  C4_connector_candidates (PyStr.lit ("Go.")) (by decide) (by decide)

/-- C9: the sentence-initial capitalization fix is idempotent: applying
`_fix_capitalization` twice yields the same result as applying it once. -/
theorem C9_fixCapitalization_idempotent (s : List Char) :
    SP.fixCapitalization (SP.fixCapitalization s) = SP.fixCapitalization s :=
  SP.fixCapitalization_idem s

namespace PyStr

theorem infix_append_split {p a b : List Char} (h : p <:+: a ++ b) :
    p <:+: a ∨ p <:+: b ∨
      ∃ k, 0 < k ∧ k < p.length ∧ p.take k <:+ a ∧ p.drop k <+: b := by
  induction a with
  | nil => exact Or.inr (Or.inl (by simpa using h))
  | cons x a2 IH =>
    rw [List.cons_append, List.infix_cons_iff] at h
    rcases h with hp | hin
    · by_cases hlen : p.length ≤ (x :: a2).length
      · left
        have h5 : p <+: (x :: a2) ++ b := by simpa using hp
        exact ((List.isPrefix_append_of_length hlen).mp h5).isInfix
      · push_neg at hlen
        have hpre : (x :: a2) <+: p := by
          have h2 : (x :: a2) <+: (x :: a2) ++ b := List.prefix_append _ _
          have h3 : p <+: (x :: a2) ++ b := by simpa using hp
          rcases List.prefix_or_prefix_of_prefix h3 h2 with h4 | h4
          · exact absurd h4.length_le (by omega)
          · exact h4
        right; right
        refine ⟨(x :: a2).length, by simp, hlen, ?_, ?_⟩
        · have := List.prefix_iff_eq_take.mp hpre
          rw [← this]
        · obtain ⟨t, ht⟩ := hpre
          have hdrop : p.drop (x :: a2).length = t := by
            rw [← ht, List.drop_left]
          rw [hdrop]
          have h3 : p <+: (x :: a2) ++ b := by simpa using hp
          rw [← ht] at h3
          rw [show x :: a2 ++ t = (x :: a2) ++ t from rfl,
            show x :: a2 ++ b = (x :: a2) ++ b from rfl] at h3
          exact (List.prefix_append_right_inj _).mp h3
    · rcases IH hin with h1 | h1 | ⟨k, hk1, hk2, hk3, hk4⟩
      · exact Or.inl (List.infix_cons h1)
      · exact Or.inr (Or.inl h1)
      · exact Or.inr (Or.inr ⟨k, hk1, hk2, hk3.trans (List.suffix_cons x a2), hk4⟩)

end PyStr

namespace PyStr

theorem replAllF_drop_transfer {p q r : List Char}
    (hr3 : ∀ k, k < p.length → 0 < k → ¬ (p.drop k <+: r) ∧ ¬ (r <+: p.drop k)) :
    ∀ (fuel : Nat) (t : List Char) (k : Nat), 0 < k → k < p.length →
      p.drop k <+: replAllF q r fuel t → p.drop k <+: t := by
  intro fuel
  induction fuel with
  | zero =>
    intro t k _ _ hpre
    cases t <;> exact hpre
  | succ f IH =>
    intro t k hk1 hk2 hpre
    cases t with
    | nil => exact hpre
    | cons c cs =>
      have heq : replAllF q r (Nat.succ f) (c :: cs) =
          if q ≠ [] ∧ q.isPrefixOf (c :: cs) then
            r ++ replAllF q r f ((c :: cs).drop q.length)
          else c :: replAllF q r f cs := rfl
      rw [heq] at hpre
      split at hpre
      · exfalso
        have h2 : r <+: r ++ replAllF q r f ((c :: cs).drop q.length) :=
          List.prefix_append r _
        rcases List.prefix_or_prefix_of_prefix hpre h2 with h4 | h4
        · exact (hr3 k hk2 hk1).1 h4
        · exact (hr3 k hk2 hk1).2 h4
      · have hdropEq : p.drop k = p[k] :: p.drop (k + 1) := List.drop_eq_getElem_cons hk2
        rw [hdropEq] at hpre ⊢
        rw [List.cons_prefix_iff] at hpre ⊢
        refine ⟨hpre.1, ?_⟩
        by_cases hk3 : k + 1 < p.length
        · exact IH cs (k + 1) (by omega) hk3 hpre.2
        · have hlen : p.drop (k + 1) = [] := List.drop_eq_nil_of_le (by omega)
          rw [hlen]
          exact List.nil_prefix

theorem replAllF_absent {p q r : List Char} (hp : p ≠ [])
    (hr1 : ¬ p <:+: r)
    (hr2 : ∀ k, k < p.length → 0 < k → ¬ (p.take k <:+ r))
    (hr3 : ∀ k, k < p.length → 0 < k → ¬ (p.drop k <+: r) ∧ ¬ (r <+: p.drop k)) :
    ∀ (fuel : Nat) (s : List Char), s.length ≤ fuel → (p = q ∨ ¬ p <:+: s) →
      ¬ p <:+: replAllF q r fuel s := by
  intro fuel
  induction fuel with
  | zero =>
    intro s hfuel hs hinf
    have hnil : s = [] := List.length_eq_zero.mp (Nat.le_zero.mp hfuel)
    subst hnil
    exact hp (List.eq_nil_of_infix_nil hinf)
  | succ f IH =>
    intro s hfuel hs hinf
    cases s with
    | nil => exact hp (List.eq_nil_of_infix_nil hinf)
    | cons c cs =>
      simp only [List.length_cons] at hfuel
      have heq : replAllF q r (Nat.succ f) (c :: cs) =
          if q ≠ [] ∧ q.isPrefixOf (c :: cs) then
            r ++ replAllF q r f ((c :: cs).drop q.length)
          else c :: replAllF q r f cs := rfl
      rw [heq] at hinf
      split at hinf
      · rename_i hcond
        rcases infix_append_split hinf with h1 | h1 | ⟨k, hk1, hk2, hk3, hk4⟩
        · exact hr1 h1
        · refine IH ((c :: cs).drop q.length) ?_ ?_ h1
          · have : 1 ≤ q.length := by
              cases hq2 : q with
              | nil => exact absurd hq2 hcond.1
              | cons _ _ => simp
            simp only [List.length_drop, List.length_cons]
            omega
          · rcases hs with hpq | hni
            · exact Or.inl hpq
            · right
              intro h2
              exact hni (h2.trans (List.drop_suffix q.length (c :: cs)).isInfix)
        · exact hr2 k hk2 hk1 hk3
      · rename_i hcond
        rcases List.infix_cons_iff.mp hinf with hp2 | hp2
        · -- p is a prefix of the cons result; transfer its tail back to cs
          cases hpShape : p with
          | nil => exact hp hpShape
          | cons p0 ptl =>
            rw [hpShape, List.cons_prefix_iff] at hp2
            have htl : ptl <+: cs := by
              cases htlShape : ptl with
              | nil => exact List.nil_prefix
              | cons t0 ttl =>
                have h1lt : 1 < p.length := by rw [hpShape, htlShape]; simp
                have hdrop1 : p.drop 1 = ptl := by rw [hpShape]; rfl
                have := replAllF_drop_transfer hr3 f cs 1 (by omega) h1lt
                  (by rw [hdrop1, htlShape]; rw [htlShape] at hp2; exact hp2.2)
                rw [hdrop1, htlShape] at this
                exact this
            have hpre : p <+: c :: cs := by
              rw [hpShape, List.cons_prefix_iff]
              exact ⟨hp2.1, htl⟩
            rcases hs with hpq | hni
            · apply hcond
              constructor
              · rw [← hpq]; exact hp ∘ (fun h => h)  -- q ≠ []
              · exact List.isPrefixOf_iff_prefix.mpr (hpq ▸ hpre)
            · exact hni hpre.isInfix
        · refine IH cs (by omega) ?_ hp2
          rcases hs with hpq | hni
          · exact Or.inl hpq
          · exact Or.inr (fun h2 => hni (List.infix_cons h2))

end PyStr

namespace PyStr

theorem replNF_zero (q ins : List Char) : ∀ (fuel : Nat) (s : List Char),
    replNF q ins fuel 0 s = s := by
  intro fuel s
  cases fuel <;> cases s <;> rfl

theorem replNF_drop_transfer {p q ins : List Char}
    (hi3 : ∀ k, k < p.length → 0 < k → ¬ (p.drop k <+: ins) ∧ ¬ (ins <+: p.drop k)) :
    ∀ (fuel : Nat) (t : List Char) (k : Nat), 0 < k → k < p.length →
      p.drop k <+: replNF q ins fuel 1 t → p.drop k <+: t := by
  intro fuel
  induction fuel with
  | zero =>
    intro t k _ _ hpre
    cases t <;> exact hpre
  | succ f IH =>
    intro t k hk1 hk2 hpre
    cases t with
    | nil => exact hpre
    | cons c cs =>
      have heq : replNF q ins (Nat.succ f) 1 (c :: cs) =
          if q ≠ [] ∧ q.isPrefixOf (c :: cs) then
            ins ++ replNF q ins f 0 ((c :: cs).drop q.length)
          else c :: replNF q ins f 1 cs := rfl
      rw [heq] at hpre
      split at hpre
      · exfalso
        have h2 : ins <+: ins ++ replNF q ins f 0 ((c :: cs).drop q.length) :=
          List.prefix_append ins _
        rcases List.prefix_or_prefix_of_prefix hpre h2 with h4 | h4
        · exact (hi3 k hk2 hk1).1 h4
        · exact (hi3 k hk2 hk1).2 h4
      · have hdropEq : p.drop k = p[k] :: p.drop (k + 1) := List.drop_eq_getElem_cons hk2
        rw [hdropEq] at hpre ⊢
        rw [List.cons_prefix_iff] at hpre ⊢
        refine ⟨hpre.1, ?_⟩
        by_cases hk3 : k + 1 < p.length
        · exact IH cs (k + 1) (by omega) hk3 hpre.2
        · have hlen : p.drop (k + 1) = [] := List.drop_eq_nil_of_le (by omega)
          rw [hlen]
          exact List.nil_prefix

theorem replNF1_absent {p q ins : List Char} (hp : p ≠ [])
    (hi1 : ¬ p <:+: ins)
    (hi2 : ∀ k, k < p.length → 0 < k → ¬ (p.take k <:+ ins))
    (hi3 : ∀ k, k < p.length → 0 < k → ¬ (p.drop k <+: ins) ∧ ¬ (ins <+: p.drop k)) :
    ∀ (fuel : Nat) (s : List Char), ¬ p <:+: s → ¬ p <:+: replNF q ins fuel 1 s := by
  intro fuel
  induction fuel with
  | zero =>
    intro s hs hinf
    cases s with
    | nil => exact hs hinf
    | cons c cs => exact hs hinf
  | succ f IH =>
    intro s hs hinf
    cases s with
    | nil => exact hs hinf
    | cons c cs =>
      have heq : replNF q ins (Nat.succ f) 1 (c :: cs) =
          if q ≠ [] ∧ q.isPrefixOf (c :: cs) then
            ins ++ replNF q ins f 0 ((c :: cs).drop q.length)
          else c :: replNF q ins f 1 cs := rfl
      rw [heq] at hinf
      split at hinf
      · rw [replNF_zero] at hinf
        rcases infix_append_split hinf with h1 | h1 | ⟨k, hk1, hk2, hk3, hk4⟩
        · exact hi1 h1
        · exact hs (h1.trans (List.drop_suffix q.length (c :: cs)).isInfix)
        · exact hi2 k hk2 hk1 hk3
      · rcases List.infix_cons_iff.mp hinf with hp2 | hp2
        · cases hpShape : p with
          | nil => exact hp hpShape
          | cons p0 ptl =>
            rw [hpShape, List.cons_prefix_iff] at hp2
            have htl : ptl <+: cs := by
              cases htlShape : ptl with
              | nil => exact List.nil_prefix
              | cons t0 ttl =>
                have h1lt : 1 < p.length := by rw [hpShape, htlShape]; simp
                have hdrop1 : p.drop 1 = ptl := by rw [hpShape]; rfl
                have := replNF_drop_transfer hi3 f cs 1 (by omega) h1lt
                  (by rw [hdrop1, htlShape]; rw [htlShape] at hp2; exact hp2.2)
                rw [hdrop1, htlShape] at this
                exact this
            have hpre : p <+: c :: cs := by
              rw [hpShape, List.cons_prefix_iff]
              exact ⟨hp2.1, htl⟩
            exact hs hpre.isInfix
        · exact IH cs (fun h2 => hs (List.infix_cons h2)) hp2

end PyStr

namespace PyStr


theorem forall₂_upRel_refl (s : List Char) : List.Forall₂ upRel s s :=
  List.forall₂_same.mpr fun _ _ => Or.inl rfl

theorem upRel_trans {x y z : Char} (h1 : upRel x y) (h2 : upRel y z) : upRel x z := by
  rcases h1 with h1 | h1 <;> rcases h2 with h2 | h2 <;> subst h1 <;> subst h2
  · exact Or.inl rfl
  · exact Or.inr rfl
  · exact Or.inr rfl
  · exact Or.inr (toUpper_toUpper x)

theorem forall₂_upRel_trans {a b c : List Char}
    (h1 : List.Forall₂ upRel a b) (h2 : List.Forall₂ upRel b c) :
    List.Forall₂ upRel a c := by
  induction h1 generalizing c with
  | nil =>
    cases h2
    exact List.Forall₂.nil
  | cons hxy htl IH =>
    cases h2 with
    | cons hyz htl2 => exact List.Forall₂.cons (upRel_trans hxy hyz) (IH htl2)


theorem upRel_eq_of_upSafe {x c : Char} (hs : upSafe c = true) (h : upRel x c) : x = c := by
  rcases h with h | h
  · exact h.symm
  · by_cases hl : 97 ≤ x.toNat ∧ x.toNat ≤ 122
    · exfalso
      have h2 := toUpper_toNat_of_lower hl.1 hl.2
      rw [← h] at h2
      simp only [upSafe, Bool.or_eq_true, Bool.and_eq_true, decide_eq_true_eq] at hs
      omega
    · rw [h, toUpper_of_not_lower hl]

theorem forall₂_upRel_eq {m p : List Char} (hs : ∀ c ∈ p, upSafe c = true)
    (h : List.Forall₂ upRel m p) : m = p := by
  induction h with
  | nil => rfl
  | cons hab _ IH =>
    rw [upRel_eq_of_upSafe (hs _ (List.mem_cons_self _ _)) hab,
      IH (fun c hc => hs c (List.mem_cons_of_mem _ hc))]

theorem absent_of_forall₂_upRel {p s t : List Char}
    (hs : ∀ c ∈ p, upSafe c = true)
    (hW : List.Forall₂ upRel s t) (hni : ¬ p <:+: s) : ¬ p <:+: t := by
  intro hinf
  obtain ⟨u, v, huv⟩ := hinf
  rw [← huv, List.append_assoc] at hW
  have h2 := List.forall₂_drop_append s u (p ++ v) hW
  have h3 := List.forall₂_take_append _ p v h2
  have heq := forall₂_upRel_eq hs h3
  apply hni
  rw [← heq]
  exact (List.take_prefix _ _).isInfix.trans (List.drop_suffix _ _).isInfix

end PyStr

namespace SP

open PyStr

theorem forall₂_upRel_upFirst (s : List Char) : List.Forall₂ upRel s (upFirst s) := by
  cases s with
  | nil => exact List.Forall₂.nil
  | cons c cs => exact List.Forall₂.cons (Or.inr rfl) (forall₂_upRel_refl cs)

theorem forall₂_upRel_fixCapSub_aux : ∀ n (s : List Char), s.length ≤ n →
    List.Forall₂ upRel s (fixCapSub s) := by
  intro n
  induction n with
  | zero =>
    intro s hs
    have hnil : s = [] := List.length_eq_zero.mp (Nat.le_zero.mp hs)
    subst hnil
    exact List.Forall₂.nil
  | succ n IH =>
    intro s hs
    match s with
    | [] => exact List.Forall₂.nil
    | [a] => exact forall₂_upRel_refl _
    | [a, b] => exact forall₂_upRel_refl _
    | a :: b :: c :: t =>
      simp only [List.length_cons] at hs
      rw [fixCapSub_cons3]
      by_cases h : (a == '.' && b == ' ' && isLowerAZ c) = true
      · rw [if_pos h]
        exact List.Forall₂.cons (Or.inl rfl) (List.Forall₂.cons (Or.inl rfl)
          (List.Forall₂.cons (Or.inr rfl) (IH t (by omega))))
      · rw [if_neg h]
        exact List.Forall₂.cons (Or.inl rfl)
          (IH (b :: c :: t) (by simp only [List.length_cons]; omega))

theorem forall₂_upRel_fixCap (s : List Char) :
    List.Forall₂ upRel s (fixCapitalization s) :=
  forall₂_upRel_trans (forall₂_upRel_upFirst s)
    (forall₂_upRel_fixCapSub_aux (upFirst s).length (upFirst s) (Nat.le_refl _))

theorem fixCap_absent {p s : List Char} (hs : ∀ c ∈ p, upSafe c = true)
    (hni : ¬ p <:+: s) : ¬ p <:+: fixCapitalization s :=
  absent_of_forall₂_upRel hs (forall₂_upRel_fixCap s) hni

end SP

namespace PyStr

theorem replAll_absent {p q r : List Char} (hp : p ≠ []) (hr1 : ¬ p <:+: r)
    (hr2 : ∀ k, k < p.length → 0 < k → ¬ (p.take k <:+ r))
    (hr3 : ∀ k, k < p.length → 0 < k → ¬ (p.drop k <+: r) ∧ ¬ (r <+: p.drop k))
    (s : List Char) (hor : p = q ∨ ¬ p <:+: s) : ¬ p <:+: replAll q r s :=
  replAllF_absent hp hr1 hr2 hr3 s.length s (Nat.le_refl _) hor

theorem replN1_absent {p q ins : List Char} (hp : p ≠ []) (hi1 : ¬ p <:+: ins)
    (hi2 : ∀ k, k < p.length → 0 < k → ¬ (p.take k <:+ ins))
    (hi3 : ∀ k, k < p.length → 0 < k → ¬ (p.drop k <+: ins) ∧ ¬ (ins <+: p.drop k))
    (s : List Char) (hs : ¬ p <:+: s) : ¬ p <:+: replN q ins 1 s :=
  replNF1_absent hp hi1 hi2 hi3 s.length s hs

end PyStr

namespace SP

open PyStr

theorem formal_style_absence (x : List Char) :
    (¬ ct ("can") ("t") <:+: applyStyleTransformations x (lit ("formal"))) ∧
    (¬ ct ("won") ("t") <:+: applyStyleTransformations x (lit ("formal"))) ∧
    (¬ ct ("don") ("t") <:+: applyStyleTransformations x (lit ("formal"))) ∧
    (¬ ct ("isn") ("t") <:+: applyStyleTransformations x (lit ("formal"))) := by
  unfold applyStyleTransformations
  rw [if_pos rfl]
  dsimp only
  set t1 := replAll (ct ("can") ("t")) (lit ("cannot")) x with ht1
  set t2 := replAll (ct ("won") ("t")) (lit ("will not")) t1 with ht2
  set t3 := replAll (ct ("don") ("t")) (lit ("do not")) t2 with ht3
  set t4 := replAll (ct ("isn") ("t")) (lit ("is not")) t3 with ht4
  have hc1 : ¬ ct ("can") ("t") <:+: t1 :=
    replAll_absent (by decide) (by decide) (by decide) (by decide) x (Or.inl rfl)
  have hc2 : ¬ ct ("can") ("t") <:+: t2 :=
    replAll_absent (by decide) (by decide) (by decide) (by decide) t1 (Or.inr hc1)
  have hc3 : ¬ ct ("can") ("t") <:+: t3 :=
    replAll_absent (by decide) (by decide) (by decide) (by decide) t2 (Or.inr hc2)
  have hc4 : ¬ ct ("can") ("t") <:+: t4 :=
    replAll_absent (by decide) (by decide) (by decide) (by decide) t3 (Or.inr hc3)
  have hw2 : ¬ ct ("won") ("t") <:+: t2 :=
    replAll_absent (by decide) (by decide) (by decide) (by decide) t1 (Or.inl rfl)
  have hw3 : ¬ ct ("won") ("t") <:+: t3 :=
    replAll_absent (by decide) (by decide) (by decide) (by decide) t2 (Or.inr hw2)
  have hw4 : ¬ ct ("won") ("t") <:+: t4 :=
    replAll_absent (by decide) (by decide) (by decide) (by decide) t3 (Or.inr hw3)
  have hd3 : ¬ ct ("don") ("t") <:+: t3 :=
    replAll_absent (by decide) (by decide) (by decide) (by decide) t2 (Or.inl rfl)
  have hd4 : ¬ ct ("don") ("t") <:+: t4 :=
    replAll_absent (by decide) (by decide) (by decide) (by decide) t3 (Or.inr hd3)
  have hi4 : ¬ ct ("isn") ("t") <:+: t4 :=
    replAll_absent (by decide) (by decide) (by decide) (by decide) t3 (Or.inl rfl)
  refine ⟨?_, ?_, ?_, ?_⟩ <;> split
  · exact replN1_absent (by decide) (by decide) (by decide) (by decide) t4 hc4
  · exact hc4
  · exact replN1_absent (by decide) (by decide) (by decide) (by decide) t4 hw4
  · exact hw4
  · exact replN1_absent (by decide) (by decide) (by decide) (by decide) t4 hd4
  · exact hd4
  · exact replN1_absent (by decide) (by decide) (by decide) (by decide) t4 hi4
  · exact hi4

end SP

namespace SP

open PyStr

theorem casual_style_absence (x : List Char) :
    (¬ lit ("cannot") <:+: applyStyleTransformations x (lit ("casual"))) ∧
    (¬ lit ("will not") <:+: applyStyleTransformations x (lit ("casual"))) ∧
    (¬ lit ("do not") <:+: applyStyleTransformations x (lit ("casual"))) ∧
    (¬ lit ("is not") <:+: applyStyleTransformations x (lit ("casual"))) := by
  unfold applyStyleTransformations
  rw [if_neg (by decide), if_pos rfl]
  dsimp only
  set t1 := replAll (lit ("cannot")) (ct ("can") ("t")) x with ht1
  set t2 := replAll (lit ("will not")) (ct ("won") ("t")) t1 with ht2
  set t3 := replAll (lit ("do not")) (ct ("don") ("t")) t2 with ht3
  set t4 := replAll (lit ("is not")) (ct ("isn") ("t")) t3 with ht4
  have hc1 : ¬ lit ("cannot") <:+: t1 :=
    replAll_absent (by decide) (by decide) (by decide) (by decide) x (Or.inl rfl)
  have hc2 : ¬ lit ("cannot") <:+: t2 :=
    replAll_absent (by decide) (by decide) (by decide) (by decide) t1 (Or.inr hc1)
  have hc3 : ¬ lit ("cannot") <:+: t3 :=
    replAll_absent (by decide) (by decide) (by decide) (by decide) t2 (Or.inr hc2)
  have hc4 : ¬ lit ("cannot") <:+: t4 :=
    replAll_absent (by decide) (by decide) (by decide) (by decide) t3 (Or.inr hc3)
  have hw2 : ¬ lit ("will not") <:+: t2 :=
    replAll_absent (by decide) (by decide) (by decide) (by decide) t1 (Or.inl rfl)
  have hw3 : ¬ lit ("will not") <:+: t3 :=
    replAll_absent (by decide) (by decide) (by decide) (by decide) t2 (Or.inr hw2)
  have hw4 : ¬ lit ("will not") <:+: t4 :=
    replAll_absent (by decide) (by decide) (by decide) (by decide) t3 (Or.inr hw3)
  have hd3 : ¬ lit ("do not") <:+: t3 :=
    replAll_absent (by decide) (by decide) (by decide) (by decide) t2 (Or.inl rfl)
  have hd4 : ¬ lit ("do not") <:+: t4 :=
    replAll_absent (by decide) (by decide) (by decide) (by decide) t3 (Or.inr hd3)
  have hi4 : ¬ lit ("is not") <:+: t4 :=
    replAll_absent (by decide) (by decide) (by decide) (by decide) t3 (Or.inl rfl)
  refine ⟨?_, ?_, ?_, ?_⟩ <;> split
  · exact replN1_absent (by decide) (by decide) (by decide) (by decide) t4 hc4
  · exact hc4
  · exact replN1_absent (by decide) (by decide) (by decide) (by decide) t4 hw4
  · exact hw4
  · exact replN1_absent (by decide) (by decide) (by decide) (by decide) t4 hd4
  · exact hd4
  · exact replN1_absent (by decide) (by decide) (by decide) (by decide) t4 hi4
  · exact hi4

end SP

namespace SP

open PyStr

theorem paraphraseText_formal_absence (text : List Char) (v : Nat) :
    (¬ ct ("can") ("t") <:+: paraphraseText text (lit ("formal")) v) ∧
    (¬ ct ("won") ("t") <:+: paraphraseText text (lit ("formal")) v) ∧
    (¬ ct ("don") ("t") <:+: paraphraseText text (lit ("formal")) v) ∧
    (¬ ct ("isn") ("t") <:+: paraphraseText text (lit ("formal")) v) := by
  unfold paraphraseText
  dsimp only
  refine ⟨fixCap_absent (by decide) (formal_style_absence _).1,
    fixCap_absent (by decide) (formal_style_absence _).2.1,
    fixCap_absent (by decide) (formal_style_absence _).2.2.1,
    fixCap_absent (by decide) (formal_style_absence _).2.2.2⟩

theorem paraphraseText_casual_absence (text : List Char) (v : Nat) :
    (¬ lit ("cannot") <:+: paraphraseText text (lit ("casual")) v) ∧
    (¬ lit ("will not") <:+: paraphraseText text (lit ("casual")) v) ∧
    (¬ lit ("do not") <:+: paraphraseText text (lit ("casual")) v) ∧
    (¬ lit ("is not") <:+: paraphraseText text (lit ("casual")) v) := by
  unfold paraphraseText
  dsimp only
  refine ⟨fixCap_absent (by decide) (casual_style_absence _).1,
    fixCap_absent (by decide) (casual_style_absence _).2.1,
    fixCap_absent (by decide) (casual_style_absence _).2.2.1,
    fixCap_absent (by decide) (casual_style_absence _).2.2.2⟩

theorem spLoop_mem (text style primary : List Char) :
    ∀ (rem i : Nat) (results : List (List Char)) (x : List Char),
      x ∈ spLoop text style primary i rem results →
      x ∈ results ∨ ∃ v, x = paraphraseText text style v := by
  intro rem
  induction rem with
  | zero =>
    intro i results x hx
    exact Or.inl hx
  | succ n IH =>
    intro i results x hx
    unfold spLoop at hx
    dsimp only at hx
    split at hx
    · rcases IH (i + 1) _ x hx with hm | hm
      · rcases List.mem_append.mp hm with hm2 | hm2
        · exact Or.inl hm2
        · exact Or.inr ⟨i + 1, (List.mem_singleton.mp hm2)⟩
      · exact Or.inr hm
    · exact IH (i + 1) _ x hx

theorem paraphrase_mem (text style : List Char) (k : Nat) (x : List Char)
    (hx : x ∈ paraphrase text style k) : ∃ v, x = paraphraseText text style v := by
  unfold paraphrase at hx
  dsimp only at hx
  rcases spLoop_mem text style _ (k - 1) 0 _ x hx with hm | hm
  · exact ⟨0, List.mem_singleton.mp hm⟩
  · exact hm

end SP

set_option maxHeartbeats 4000000

/-- C6 (amended): the style invariant holds for the SimpleParaphraser script,
whose formal pass rewrites every mapped contraction and whose casual pass
rewrites every mapped expansion: no candidate produced with style formal
contains a mapped contraction, and no candidate produced with style casual
contains a mapped expanded form. (It fails for the ParaphraseModel fallback
engine, whose connector candidates bypass the style-grammar pass.) -/
theorem C6_simple_style_invariant (text cand : List Char) (k : Nat) :
    (cand ∈ SP.paraphrase text (PyStr.lit ("formal")) k →
      ¬ PyStr.ct ("can") ("t") <:+: cand ∧ ¬ PyStr.ct ("won") ("t") <:+: cand ∧
      ¬ PyStr.ct ("don") ("t") <:+: cand ∧ ¬ PyStr.ct ("isn") ("t") <:+: cand) ∧
    (cand ∈ SP.paraphrase text (PyStr.lit ("casual")) k →
      ¬ PyStr.lit ("cannot") <:+: cand ∧ ¬ PyStr.lit ("will not") <:+: cand ∧
      ¬ PyStr.lit ("do not") <:+: cand ∧ ¬ PyStr.lit ("is not") <:+: cand) := by
  constructor
  · intro hmem
    obtain ⟨v, hv⟩ := SP.paraphrase_mem _ _ _ _ hmem
    subst hv
    exact SP.paraphraseText_formal_absence text v
  · intro hmem
    obtain ⟨v, hv⟩ := SP.paraphrase_mem _ _ _ _ hmem
    subst hv
    exact SP.paraphraseText_casual_absence text v

set_option maxHeartbeats 2000000

/-- Witness for C6 (amended): concrete runs of the SimpleParaphraser on a
contraction (formal) and an expansion (casual). -/
theorem C6_simple_style_invariant_witness :
    ((¬ PyStr.ct ("can") ("t") <:+: PyStr.lit ("I cannot go.")) ∧
     (¬ PyStr.ct ("won") ("t") <:+: PyStr.lit ("I cannot go.")) ∧
     (¬ PyStr.ct ("don") ("t") <:+: PyStr.lit ("I cannot go.")) ∧
     (¬ PyStr.ct ("isn") ("t") <:+: PyStr.lit ("I cannot go."))) ∧
    ((¬ PyStr.lit ("cannot") <:+: PyStr.ct ("I don") ("t go.")) ∧
     (¬ PyStr.lit ("will not") <:+: PyStr.ct ("I don") ("t go.")) ∧
     (¬ PyStr.lit ("do not") <:+: PyStr.ct ("I don") ("t go.")) ∧
     (¬ PyStr.lit ("is not") <:+: PyStr.ct ("I don") ("t go."))) :=
  ⟨(C6_simple_style_invariant (PyStr.ct ("I can") ("t go."))
      (PyStr.lit ("I cannot go.")) 1).1 (by decide),
   (C6_simple_style_invariant (PyStr.lit ("I do not go."))
      (PyStr.ct ("I don") ("t go.")) 1).2 (by decide)⟩
